import Mathlib

/-!
# Hanabi GNOME extension: renderer supervisor (src/extension.js)

A shallow embedding of `extension.js`: the `LaunchSubprocess` class, the global
`data` object, the functions `init`, `innerEnable`, `killCurrentProcess`,
`doKillAllOldRendererProcesses`, `launchRenderer` and the `Extension` methods
`enable` / `disable`.

Conventions of the embedding.

* JavaScript objects that are compared by identity (`LaunchSubprocess` handles and the
  `Gio.Subprocess` each of them owns) are numbered in creation order; handle number `k`
  owns subprocess number `k`.
* GLib main-loop sources (`GLib.timeout_add`) and signal connections get fresh ids
  from a counter, starting at 1, as GLib hands them out.
* A JavaScript function that can throw returns the state reached when it stopped
  together with the exception (there is no rollback of the assignments already made).
* Asynchronous callbacks are events of a step function: one event is one callback
  dispatched by the main loop.
-/

namespace Hanabi

/-! ## Values shared by the whole file -/

/-- JavaScript exceptions: a `TypeError` raised by a property access on `null` /
`undefined`, or a `GLib.Error` raised by a platform call. -/
inductive JsError where
  | typeError (what : String)
  | gerror (what : String)
  deriving DecidableEq, Repr

/-- What the OS reports about a finished child: `get_if_exited()` with
`get_exit_status()`, or death by a signal. -/
inductive ExitStatus where
  | exited (code : Nat)
  | signaled (sig : Nat)
  deriving DecidableEq, Repr

/-- Outcome of `read_line_finish_utf8` for one completed `read_line_async`:
a line with its reported length, end of stream (`[null, 0]`), or a thrown error that
either matches `Gio.IOErrorEnum.CANCELLED` or does not. -/
inductive ReadCompletion where
  | line (output : String) (length : Nat)
  | eof
  | failed (cancelled : Bool) (what : String)
  deriving DecidableEq, Repr

/-- One record of the logging sink: `print(text)` or `logError(e, tag)`. -/
inductive LogEntry where
  | print (text : String)
  | logError (what : String) (tag : String)
  deriving DecidableEq, Repr

/-- `Gio.SubprocessFlags.STDOUT_PIPE`. -/
def STDOUT_PIPE : Nat := 4

/-- `Gio.SubprocessFlags.STDERR_MERGE`. -/
def STDERR_MERGE : Nat := 64

/-! ## class LaunchSubprocess -/

/-- The `Gio.SubprocessLauncher` held by a handle until `spawnv` drops it. -/
structure Launcher where
  flags : Nat
  cwd : Option String
  deriving DecidableEq, Repr

/-- Fields of a `LaunchSubprocess` object. The first block holds the JavaScript fields
(`cancellable` is `none` for `null`, `some c` for a `Gio.Cancellable` whose cancelled
flag is `c`; `_waylandClient` and `_dataInputStream` record whether the field holds an
object; `subprocess` holds the number of the `Gio.Subprocess`). The second block is the
platform state attached to the objects the handle owns: the argument vector and working
directory handed to the OS spawn, whether a `read_line_async` is outstanding, whether the
`wait_async` callback registered by `spawnv` is still pending, whether the `wait_async`
callback registered by `launchRenderer` is still pending, and the signals sent. -/
structure LaunchSubprocess where
  _process_id : String
  _cmd_parameter : String
  _UUID : Option String
  _flags : Nat
  cancellable : Option Bool
  _launcher : Option Launcher
  _waylandClient : Bool
  subprocess : Option Nat
  process_running : Bool
  _dataInputStream : Bool
  spawnArgv : Option (List String)
  spawnCwd : Option String
  readPending : Bool
  waitPending : Bool
  exitWatched : Bool
  signals : List Nat
  deriving DecidableEq, Repr

namespace LaunchSubprocess

/-- The `constructor(flags, process_id, cmd_parameter)`. `wayland` is
`Meta.is_wayland_compositor()`. (The `_launcher.ref()` workaround for 3.38.0 has no
effect on the modelled state.) -/
def new (wayland : Bool) (flags : Nat) (process_id cmd_parameter : String) :
    LaunchSubprocess :=
  { _process_id := process_id
    _cmd_parameter := cmd_parameter
    _UUID := none
    _flags := flags ||| STDOUT_PIPE ||| STDERR_MERGE
    cancellable := some false
    _launcher := some { flags := flags ||| STDOUT_PIPE ||| STDERR_MERGE, cwd := none }
    _waylandClient := wayland
    subprocess := none
    process_running := false
    _dataInputStream := false
    spawnArgv := none
    spawnCwd := none
    readPending := false
    waitPending := false
    exitWatched := false
    signals := [] }

/-- A handle that was never constructed: the content of an unused slot. -/
def blank : LaunchSubprocess :=
  { _process_id := ""
    _cmd_parameter := ""
    _UUID := none
    _flags := 0
    cancellable := none
    _launcher := none
    _waylandClient := false
    subprocess := none
    process_running := false
    _dataInputStream := false
    spawnArgv := none
    spawnCwd := none
    readPending := false
    waitPending := false
    exitWatched := false
    signals := [] }

/-- The method `set_cwd(cwd)`: `this._launcher.set_cwd(cwd)`. -/
def set_cwd (self : LaunchSubprocess) (cwd : String) : LaunchSubprocess × Option JsError :=
  match self._launcher with
  | none => (self, some (.typeError "this._launcher is null"))
  | some l => ({ self with _launcher := some { l with cwd := some cwd } }, none)

/-- The method `read_output()`: returns at once when there is no input stream, else issues
one `read_line_async`. -/
def read_output (self : LaunchSubprocess) : LaunchSubprocess :=
  if self._dataInputStream then { self with readPending := true } else self

/-- The callback passed to `read_line_async` in `read_output`, run on the completion `c`
of the outstanding read. Returns the handle and what was sent to the logging sink. -/
def read_line_callback (self : LaunchSubprocess) (c : ReadCompletion) :
    LaunchSubprocess × List LogEntry :=
  let s := { self with readPending := false }
  match c with
  | .line output length =>
      (s.read_output,
        if length ≠ 0 then [LogEntry.print (self._process_id ++ ": " ++ output)] else [])
  | .eof => (s.read_output, [])
  | .failed true _ => (s, [])
  | .failed false what =>
      (s.read_output, [LogEntry.logError what (self._process_id ++ "_Error")])

/-- The part of `spawnv` after the platform spawn call returned: `sid` is the number of
the `Gio.Subprocess`, `osCreates` whether the platform produced one. -/
def spawnv_finish (self : LaunchSubprocess) (sid : Nat) (osCreates : Bool)
    (argv : List String) : LaunchSubprocess × Except JsError (Option Nat) :=
  let s1 := { self with
    subprocess := if osCreates then some sid else none
    spawnArgv := some argv
    spawnCwd := self._launcher.bind Launcher.cwd }
  match s1._launcher with
  | none => (s1, .error (.typeError "this._launcher is null"))
  | some _ =>
      let s2 := { s1 with _launcher := none }
      match s2.subprocess with
      | some p =>
          let s3 := read_output { s2 with _dataInputStream := true }
          ({ s3 with waitPending := true, process_running := true }, .ok (some p))
      | none => (s2, .ok none)

/-- The method `spawnv(argv)`. Under Wayland the spawn goes through
`this._waylandClient.spawnv(global.display, argv)`, else through
`this._launcher.spawnv(argv)`; `argv` is what either call receives. -/
def spawnv (self : LaunchSubprocess) (wayland : Bool) (sid : Nat) (osCreates : Bool)
    (argv : List String) : LaunchSubprocess × Except JsError (Option Nat) :=
  if wayland then
    if self._waylandClient then self.spawnv_finish sid osCreates argv
    else (self, .error (.typeError "this._waylandClient is undefined"))
  else
    match self._launcher with
    | none => (self, .error (.typeError "this._launcher is null"))
    | some _ => self.spawnv_finish sid osCreates argv

/-- The callback passed to `this.subprocess.wait_async(this.cancellable, ...)` in
`spawnv`. -/
def wait_callback (self : LaunchSubprocess) : LaunchSubprocess :=
  { self with
    waitPending := false
    process_running := false
    _dataInputStream := false
    cancellable := none }

/-- The method `query_window_belongs_to(window)`. `owns` is the platform call
`this._waylandClient.owns_window`, which returns a boolean or throws. The method assigns
to nothing, so the embedding has no state to return. -/
def query_window_belongs_to (self : LaunchSubprocess) (wayland : Bool)
    (owns : Nat → Except JsError Bool) (window : Nat) : Except JsError Bool :=
  if !wayland then .ok false
  else if !self.process_running then .ok false
  else
    let attempt : Except JsError Bool :=
      if self._waylandClient then owns window
      else .error (.typeError "this._waylandClient is undefined")
    match attempt with
    | .ok b => .ok b
    | .error _ => .ok false

end LaunchSubprocess

/-! ## The global `data` object and the platform around it -/

/-- The `EmulateX11WindowType` collaborator, at its interface: `enable()`, `disable()`
and `set_wayland_client(client)`. -/
structure X11Manager where
  enabled : Bool
  client : Option Nat
  deriving DecidableEq, Repr

/-- The global `data` object after `init()`. `GnomeShellOverride` is `none` for `null`
and `some e` for the collaborator object with its enabled flag `e`; `currentProcess`
holds the number of the handle it refers to; `startupPreparedId` is `none` while
undefined or `null`. (`GnomeShellVersion` is written by `init` and never read.) -/
structure Data where
  isEnabled : Bool
  launchRendererId : Nat
  currentProcess : Option Nat
  reloadTime : Nat
  GnomeShellOverride : Option Bool
  x11Manager : Option X11Manager
  startupPreparedId : Option Nat
  deriving DecidableEq, Repr

/-- Constants of the session: `Meta.is_wayland_compositor()`,
`ExtensionUtils.getCurrentExtension().path`, the value of
`GLib.build_filenamev([path, "renderer.js"])` and `GLib.get_home_dir()`. -/
structure Config where
  wayland : Bool
  extensionPath : String
  rendererPath : String
  homeDir : String
  deriving DecidableEq, Repr

/-- The state of the supervisor and of the platform objects it created: every handle
ever constructed (`handles k` for `k < numHandles`), the armed `GLib.timeout_add`
sources as pairs of id and interval (all of them carry the same callback, the one that
clears `launchRendererId` and calls `launchRenderer`), the connected `startup-complete`
handlers, and the names passed to `/bin/kill` by `init`. -/
structure World where
  cfg : Config
  data : Data
  handles : Nat → LaunchSubprocess
  numHandles : Nat
  timers : List (Nat × Nat)
  nextSourceId : Nat
  startupHandlers : List Nat
  nextHandlerId : Nat
  killed : List String

/-- Result of a JavaScript call: the state when the call stopped and the exception that
stopped it, if any. -/
structure Outcome where
  world : World
  thrown : Option JsError

/-- Replace handle number `k`. -/
def setHandle (w : World) (k : Nat) (h : LaunchSubprocess) : World :=
  { w with handles := fun i => if i = k then h else w.handles i }

/-- `GLib.source_remove(id)`: detaches the source with that id; an id that names no
source only produces a warning. -/
def source_remove (w : World) (id : Nat) : World :=
  { w with timers := w.timers.filter (fun t => t.1 != id) }

/-- `GLib.timeout_add(GLib.PRIORITY_DEFAULT, interval, callback)`: attaches a source and
returns its id. -/
def timeout_add (w : World) (interval : Nat) : World × Nat :=
  ({ w with
      timers := w.timers ++ [(w.nextSourceId, interval)]
      nextSourceId := w.nextSourceId + 1 },
    w.nextSourceId)

/-! ## StaleInstanceReaper: doKillAllOldRendererProcesses -/

/-- One child of `/proc` as the enumeration sees it: its name and the bytes of its
`cmdline` file, `none` when `query_exists` on that file is false. -/
structure ProcEntry where
  filename : String
  cmdline : Option (List Nat)
  deriving DecidableEq, Repr

/-- The inner `for` loop: every byte below 32 becomes a space, every other byte the
character with that code. -/
def decodeCmdline (readData : List Nat) : List Char :=
  readData.map (fun b => if b < 32 then ' ' else Char.ofNat b)

/-- The string `"gjs " + GLib.build_filenamev([path, "renderer.js"])`. -/
def rendererSignature (cfg : Config) : List Char :=
  ("gjs " ++ cfg.rendererPath).toList

/-- The `while` loop over the enumeration: returns the names handed to `/bin/kill`, in
order. An entry without a name ends the loop. -/
def reapLoop (cfg : Config) : List ProcEntry → List String
  | [] => []
  | info :: rest =>
      if info.filename = "" then []
      else
        match info.cmdline with
        | none => reapLoop cfg rest
        | some readData =>
            if (rendererSignature cfg).isPrefixOf (decodeCmdline readData) then
              info.filename :: reapLoop cfg rest
            else reapLoop cfg rest

/-- The function `doKillAllOldRendererProcesses()`. `proc` is `none` when `/proc` does
not exist, else its children. Each returned name stands for one
`new Gio.Subprocess(["/bin/kill", filename])` followed by `init` and `wait`. -/
def doKillAllOldRendererProcesses (cfg : Config) (proc : Option (List ProcEntry)) :
    List String :=
  match proc with
  | none => []
  | some children => reapLoop cfg children

/-! ## RendererSupervisor -/

/-- The function `launchRenderer()`. `osCreates` tells whether the platform spawn yields
a subprocess. -/
def launchRenderer (w : World) (osCreates : Bool) : Outcome :=
  let argv := [w.cfg.rendererPath, "-P", w.cfg.extensionPath]
  let k := w.numHandles
  let h0 := LaunchSubprocess.new w.cfg.wayland 0 "Hanabi" "-U"
  let w1 : World :=
    { w with
      data := { w.data with reloadTime := 100, currentProcess := some k }
      numHandles := k + 1 }
  let c := h0.set_cwd w.cfg.homeDir
  match c.2 with
  | some e => ⟨setHandle w1 k c.1, some e⟩
  | none =>
      let r := c.1.spawnv w.cfg.wayland k osCreates argv
      let w2 := setHandle w1 k r.1
      match r.2 with
      | .error e => ⟨w2, some e⟩
      | .ok _ =>
          match w2.data.x11Manager with
          | none => ⟨w2, some (.typeError "data.x11Manager is null")⟩
          | some m =>
              let w3 : World :=
                { w2 with data := { w2.data with x11Manager := some { m with client := some k } } }
              match r.1.subprocess with
              | none => ⟨w3, some (.typeError "data.currentProcess.subprocess is null")⟩
              | some _ => ⟨setHandle w3 k { r.1 with exitWatched := true }, none⟩

/-- The callback given to `data.currentProcess.subprocess.wait_async(null, ...)` in
`launchRenderer`, run when subprocess `obj` has finished with status `st`. -/
def exit_callback (w : World) (obj : Nat) (st : ExitStatus) : Outcome :=
  match w.data.currentProcess with
  | none => ⟨w, none⟩
  | some c =>
      if (w.handles c).subprocess ≠ some obj then ⟨w, none⟩
      else
        let reloadTime :=
          match st with
          | .exited retval => if retval ≠ 0 then 1000 else w.data.reloadTime
          | .signaled _ => 1000
        let w1 : World :=
          { w with data := { w.data with reloadTime := reloadTime, currentProcess := none } }
        match w1.data.x11Manager with
        | none => ⟨w1, some (.typeError "data.x11Manager is null")⟩
        | some m =>
            let w2 : World :=
              { w1 with data := { w1.data with x11Manager := some { m with client := none } } }
            if w2.data.isEnabled then
              let w3 :=
                if w2.data.launchRendererId ≠ 0 then source_remove w2 w2.data.launchRendererId
                else w2
              let t := timeout_add w3 w3.data.reloadTime
              ⟨{ t.1 with data := { t.1.data with launchRendererId := t.2 } }, none⟩
            else ⟨w2, none⟩

/-- The callback given to both `GLib.timeout_add` calls:
`data.launchRendererId = 0; launchRenderer(); return false`. -/
def timer_callback (w : World) (osCreates : Bool) : Outcome :=
  launchRenderer { w with data := { w.data with launchRendererId := 0 } } osCreates

/-- The function `killCurrentProcess()`. -/
def killCurrentProcess (w : World) : Outcome :=
  let w1 :=
    if w.data.launchRendererId ≠ 0 then
      let a := source_remove w w.data.launchRendererId
      let b : World := { a with data := { a.data with launchRendererId := 0 } }
      if b.data.isEnabled then
        let t := timeout_add b b.data.reloadTime
        { t.1 with data := { t.1.data with launchRendererId := t.2 } }
      else b
    else w
  match w1.data.currentProcess with
  | none => ⟨w1, none⟩
  | some c =>
      match (w1.handles c).subprocess with
      | none => ⟨w1, none⟩
      | some _ =>
          match (w1.handles c).cancellable with
          | none => ⟨w1, some (.typeError "data.currentProcess.cancellable is null")⟩
          | some _ =>
              ⟨setHandle w1 c
                { w1.handles c with
                  cancellable := some true
                  signals := (w1.handles c).signals ++ [15] }, none⟩

/-- The function `innerEnable(removeId)`. -/
def innerEnable (w : World) (removeId : Bool) (osCreates : Bool) : Outcome :=
  let w1 : World :=
    if removeId then
      { w with
        startupHandlers := w.startupHandlers.filter (fun h => some h != w.data.startupPreparedId)
        data := { w.data with startupPreparedId := none } }
    else w
  match w1.data.GnomeShellOverride with
  | none => ⟨w1, some (.typeError "data.GnomeShellOverride is null")⟩
  | some _ =>
      let w2 : World := { w1 with data := { w1.data with GnomeShellOverride := some true } }
      let continue_ (w3 : World) : Outcome :=
        let w4 : World := { w3 with data := { w3.data with isEnabled := true } }
        let w5 :=
          if w4.data.launchRendererId ≠ 0 then source_remove w4 w4.data.launchRendererId
          else w4
        launchRenderer w5 osCreates
      if w2.cfg.wayland then
        match w2.data.x11Manager with
        | none => ⟨w2, some (.typeError "data.x11Manager is null")⟩
        | some m =>
            continue_ { w2 with data := { w2.data with x11Manager := some { m with enabled := true } } }
      else continue_ w2

/-- The method `Extension.enable()`. `startingUp` is `Main.layoutManager._startingUp`. -/
def enable (w : World) (startingUp : Bool) (osCreates : Bool) : Outcome :=
  let d1 : Data :=
    if w.data.GnomeShellOverride.isNone then { w.data with GnomeShellOverride := some false }
    else w.data
  let d2 : Data :=
    if d1.x11Manager.isNone then { d1 with x11Manager := some { enabled := false, client := none } }
    else d1
  let w1 : World := { w with data := d2 }
  if startingUp then
    ⟨{ w1 with
        startupHandlers := w1.startupHandlers ++ [w1.nextHandlerId]
        nextHandlerId := w1.nextHandlerId + 1
        data := { w1.data with startupPreparedId := some w1.nextHandlerId } }, none⟩
  else innerEnable w1 false osCreates

/-- The method `Extension.disable()`. -/
def disable (w : World) : Outcome :=
  let r := killCurrentProcess { w with data := { w.data with isEnabled := false } }
  match r.thrown with
  | some e => ⟨r.world, some e⟩
  | none =>
      match r.world.data.GnomeShellOverride with
      | none => ⟨r.world, some (.typeError "data.GnomeShellOverride is null")⟩
      | some _ =>
          let w1 : World :=
            { r.world with data := { r.world.data with GnomeShellOverride := some false } }
          match w1.data.x11Manager with
          | none => ⟨w1, some (.typeError "data.x11Manager is null")⟩
          | some m =>
              ⟨{ w1 with data := { w1.data with x11Manager := some { m with enabled := false } } },
                none⟩

/-- The function `init()`: fills `data`, runs the reaper on the children of `/proc`
(`proc`, `none` when the folder does not exist) and returns. No handle, timer or signal
connection exists yet. -/
def init (cfg : Config) (proc : Option (List ProcEntry)) : World :=
  { cfg := cfg
    data :=
      { isEnabled := false
        launchRendererId := 0
        currentProcess := none
        reloadTime := 100
        GnomeShellOverride := none
        x11Manager := none
        startupPreparedId := none }
    handles := fun _ => LaunchSubprocess.blank
    numHandles := 0
    timers := []
    nextSourceId := 1
    startupHandlers := []
    nextHandlerId := 1
    killed := doKillAllOldRendererProcesses cfg proc }

/-! ## The event loop -/

/-- What the main loop can dispatch into the extension. `osCreates` is the answer of the
platform to the spawn that the dispatched code may attempt. -/
inductive Event where
  | enable (startingUp : Bool) (osCreates : Bool)
  | disable
  | killCurrentProcess
  | startupComplete (osCreates : Bool)
  | timerFired (id : Nat) (osCreates : Bool)
  | processExited (obj : Nat) (st : ExitStatus)
  | waitCancelled (handle : Nat)
  deriving DecidableEq, Repr

/-- Emission of `startup-complete` to the handlers connected when it started: a handler
runs `innerEnable(true)` unless it was disconnected meanwhile. -/
def emitStartupComplete (osCreates : Bool) : List Nat → World → World
  | [], w => w
  | h :: rest, w =>
      emitStartupComplete osCreates rest
        (if h ∈ w.startupHandlers then (innerEnable w true osCreates).world else w)

/-- The pending `wait_async` of `launchRenderer` on subprocess `obj` completes: the
registration is consumed and its callback runs. -/
def completeExitWatch (w : World) (obj : Nat) (st : ExitStatus) : World :=
  if (w.handles obj).exitWatched then
    (exit_callback (setHandle w obj { w.handles obj with exitWatched := false }) obj st).world
  else w

/-- The pending `wait_async` of `spawnv` on handle `k` completes and its callback runs. -/
def completeWait (w : World) (k : Nat) : World :=
  if (w.handles k).waitPending then setHandle w k (w.handles k).wait_callback else w

/-- Delivery of the end of subprocess `obj`: the platform completes, in one dispatch,
the pending `wait_async` of `launchRenderer` and the pending `wait_async` of `spawnv`. -/
def deliverExit (w : World) (obj : Nat) (st : ExitStatus) : World :=
  completeWait (completeExitWatch w obj st) obj

/-- One dispatch of the main loop. An exception that reaches the main loop is logged
there and the state stays as the throwing code left it. A timeout source fires only
while attached and is detached by firing (its callback returns `false`); the
`wait_async` of `spawnv` completes early only after its cancellable was cancelled. -/
def step (w : World) : Event → World
  | .enable startingUp osCreates => (enable w startingUp osCreates).world
  | .disable => (disable w).world
  | .killCurrentProcess => (killCurrentProcess w).world
  | .startupComplete osCreates => emitStartupComplete osCreates w.startupHandlers w
  | .timerFired id osCreates =>
      if w.timers.any (fun t => t.1 == id) then
        (timer_callback (source_remove w id) osCreates).world
      else w
  | .processExited obj st => deliverExit w obj st
  | .waitCancelled k =>
      if (w.handles k).cancellable == some true then completeWait w k else w

/-- Run a sequence of dispatches. -/
def run (w : World) : List Event → World
  | [] => w
  | e :: rest => run (step w e) rest

/-! ## Closed forms and invariants used by the proofs -/

/-- The handle that `launchRenderer` leaves in slot `k`. -/
def launchedHandle (cfg : Config) (k : Nat) (osCreates : Bool) : LaunchSubprocess :=
  { _process_id := "Hanabi"
    _cmd_parameter := "-U"
    _UUID := none
    _flags := 0 ||| STDOUT_PIPE ||| STDERR_MERGE
    cancellable := some false
    _launcher := none
    _waylandClient := cfg.wayland
    subprocess := if osCreates then some k else none
    process_running := osCreates
    _dataInputStream := osCreates
    spawnArgv := some [cfg.rendererPath, "-P", cfg.extensionPath]
    spawnCwd := some cfg.homeDir
    readPending := osCreates
    waitPending := osCreates
    exitWatched := osCreates
    signals := [] }

/-- The timer part of `killCurrentProcess` (its first `if`). -/
def rearm (w : World) : World :=
  if w.data.launchRendererId ≠ 0 then
    let a := source_remove w w.data.launchRendererId
    let b : World := { a with data := { a.data with launchRendererId := 0 } }
    if b.data.isEnabled then
      let t := timeout_add b b.data.reloadTime
      { t.1 with data := { t.1.data with launchRendererId := t.2 } }
    else b
  else w

/-- The signalling part of `killCurrentProcess` (its second `if`). -/
def signalCurrent (w1 : World) : Outcome :=
  match w1.data.currentProcess with
  | none => ⟨w1, none⟩
  | some c =>
      match (w1.handles c).subprocess with
      | none => ⟨w1, none⟩
      | some _ =>
          match (w1.handles c).cancellable with
          | none => ⟨w1, some (.typeError "data.currentProcess.cancellable is null")⟩
          | some _ =>
              ⟨setHandle w1 c
                { w1.handles c with
                  cancellable := some true
                  signals := (w1.handles c).signals ++ [15] }, none⟩

/-- The value of `data.reloadTime` after the exit callback classified the status `st`. -/
def reloadTimeAfter (st : ExitStatus) (reloadTime : Nat) : Nat :=
  match st with
  | .exited retval => if retval ≠ 0 then 1000 else reloadTime
  | .signaled _ => 1000

/-- The state after the exit callback ran for the current process. -/
def afterExit (v : World) (m : X11Manager) (st : ExitStatus) : World :=
  if v.data.isEnabled then
    { v with
      timers := [(v.nextSourceId, reloadTimeAfter st v.data.reloadTime)]
      nextSourceId := v.nextSourceId + 1
      data := { v.data with
        reloadTime := reloadTimeAfter st v.data.reloadTime
        currentProcess := none
        x11Manager := some { m with client := none }
        launchRendererId := v.nextSourceId } }
  else
    { v with
      data := { v.data with
        reloadTime := reloadTimeAfter st v.data.reloadTime
        currentProcess := none
        x11Manager := some { m with client := none } } }

/-- Handle `obj` with the registration of the exit callback consumed. -/
def unwatch (w : World) (obj : Nat) : World :=
  setHandle w obj { w.handles obj with exitWatched := false }

/-- Facts that hold in every state the event loop can reach: at most one timeout source
is attached, it is the one `data.launchRendererId` names and its interval is
`data.reloadTime`; no source is attached while disabled; `data.reloadTime` is 100 while
a handle is current; subprocess `k` belongs to handle `k`; the exit callback of a current
process is still registered; nothing was launched or connected before the collaborators
were created. -/
structure Inv (w : World) : Prop where
  timers_shape : w.timers = [] ∨
    (w.timers = [(w.data.launchRendererId, w.data.reloadTime)] ∧ w.data.launchRendererId ≠ 0)
  id_lt : w.data.launchRendererId < w.nextSourceId
  disabled_timers : w.data.isEnabled = false → w.timers = []
  current_reload : ∀ c, w.data.currentProcess = some c → w.data.reloadTime = 100
  current_lt : ∀ c, w.data.currentProcess = some c → c < w.numHandles
  sub_self : ∀ i q, (w.handles i).subprocess = some q → q = i
  current_watched : ∀ c q, w.data.currentProcess = some c →
    (w.handles c).subprocess = some q → (w.handles c).exitWatched = true
  x11 : w.data.x11Manager = none →
    w.data.currentProcess = none ∧ w.startupHandlers = [] ∧ w.data.launchRendererId = 0

/-- A state is reachable when some sequence of dispatches leads to it from `init()`. -/
def Reachable (w : World) : Prop :=
  ∃ (cfg : Config) (proc : Option (List ProcEntry)) (evs : List Event),
    w = run (init cfg proc) evs

/-- The tail of `innerEnable`: set `isEnabled`, detach a pending timer, launch. -/
def enableAndLaunch (w3 : World) (osCreates : Bool) : Outcome :=
  let w4 : World := { w3 with data := { w3.data with isEnabled := true } }
  let w5 :=
    if w4.data.launchRendererId ≠ 0 then source_remove w4 w4.data.launchRendererId
    else w4
  launchRenderer w5 osCreates

/-- The head of `innerEnable`: disconnect the `startup-complete` handler. -/
def disconnectStartup (w : World) (removeId : Bool) : World :=
  if removeId then
    { w with
      startupHandlers := w.startupHandlers.filter (fun h => some h != w.data.startupPreparedId)
      data := { w.data with startupPreparedId := none } }
  else w

/-- The head of `enable`: create the collaborators that do not exist yet. -/
def createCollaborators (w : World) : World :=
  let d1 : Data :=
    if w.data.GnomeShellOverride.isNone then { w.data with GnomeShellOverride := some false }
    else w.data
  let d2 : Data :=
    if d1.x11Manager.isNone then { d1 with x11Manager := some { enabled := false, client := none } }
    else d1
  { w with data := d2 }


/-- The delay the specification gives for a restart after exit status `st`: the fast value
100 after a clean exit (code 0), the slow value 1000 after a nonzero code or a death by
signal. -/
def expectedRestartDelay (st : ExitStatus) : Nat :=
  match st with
  | .exited 0 => 100
  | _ => 1000

/-- A concrete session: Wayland, the extension installed under `/ext`. -/
def sampleConfig : Config :=
  { wayland := true
    extensionPath := "/ext"
    rendererPath := "/ext/renderer.js"
    homeDir := "/home/u" }

/-- The state after `init()` and one `enable()` on a desktop that finished starting up,
with the spawn succeeding. -/
def sampleRunning : World :=
  run (init sampleConfig none) [.enable false true]

/-- The state after the renderer launched by `enable()` exited with code 1: a restart is
scheduled with the slow delay. -/
def sampleAfterCrash : World :=
  run (init sampleConfig none) [.enable false true, .processExited 0 (.exited 1)]

/-- The state after `init()` and one `enable()` while the desktop is still starting up:
nothing is launched, a `startup-complete` handler is connected. -/
def sampleStarting : World :=
  run (init sampleConfig none) [.enable true true]

/-- The state after a clean exit of the first renderer: enabled, no current process, a
restart timer (id 1, delay 100) attached. -/
def sampleRestartScheduled : World :=
  run (init sampleConfig none) [.enable false true, .processExited 0 (.exited 0)]

/-- The specification of the reaper, in the words of the claim: an entry is a stale
renderer when its `cmdline` file exists and its decoded command line starts with the
signature. -/
def isStaleRenderer (cfg : Config) (info : ProcEntry) : Bool :=
  match info.cmdline with
  | none => false
  | some readData => (rendererSignature cfg).isPrefixOf (decodeCmdline readData)

/-- The bytes of a command line: the words separated by a zero byte, as `/proc` stores
them. -/
def cmdlineBytes (words : List String) : List Nat :=
  (words.map (fun s => s.toList.map Char.toNat ++ [0])).flatten

/-- A listing of `/proc` with two stale renderers (1201 and 1377), a process without a
readable `cmdline`, and an unrelated process. -/
def sampleProc : List ProcEntry :=
  [ { filename := "1201", cmdline := some (cmdlineBytes ["gjs", "/ext/renderer.js", "-P", "/ext"]) },
    { filename := "self", cmdline := none },
    { filename := "1377", cmdline := some (cmdlineBytes ["gjs", "/ext/renderer.js"]) },
    { filename := "1400", cmdline := some (cmdlineBytes ["gjs", "/other/renderer.js"]) } ]

/-- A handle as `launchRenderer` leaves it after a successful spawn under Wayland: the
input stream is set and a read is outstanding. -/
def sampleHandle : LaunchSubprocess :=
  launchedHandle sampleConfig 0 true

/-- The dispatches considered after `killCurrentProcess()` hit the process of handle `c`:
its exit notification, possible while the exit callback is still registered, the firing
of a timer that is attached at that moment, and the early completion of a cancelled
`wait_async`. `settles c w evs` holds when `evs` consists of such dispatches, each
possible when its turn comes, and ends with the exit of `c` delivered and no timer
attached. -/
def settles (c : Nat) : World → List Event → Bool
  | w, [] => !(w.handles c).exitWatched && w.timers.isEmpty
  | w, e :: rest =>
      (match e with
        | .processExited obj _ => obj == c && (w.handles c).exitWatched
        | .timerFired id _ => w.timers.any (fun t => t.1 == id)
        | .waitCancelled _ => true
        | _ => false) && settles c (step w e) rest

/-- Whether no constructed handle has `process_running = true`. -/
def noneRunning (w : World) : Bool :=
  (List.range w.numHandles).all (fun i => !(w.handles i).process_running)

/-- The condition under which the amended C3 lets `enable()` be called: the supervisor is
disabled, no `startup-complete` handler is connected and no handle is marked running. -/
def enableAllowed (w : World) : Bool :=
  !w.data.isEnabled && w.startupHandlers.isEmpty && noneRunning w

/-- A sequence of dispatches in which every `enable()` is called under `enableAllowed`. -/
def admissible : World → List Event → Bool
  | _, [] => true
  | w, e :: rest =>
      (match e with
        | .enable _ _ => enableAllowed w
        | _ => true) && admissible (step w e) rest

/-- Facts that hold along admissible runs: a handle marked running is the current one and
its `wait_async` callback is pending; a timer is attached only while no handle is
current; `data.launchRendererId` names an attached timer or is 0; it is 0 while
disabled; a connected `startup-complete` handler is the only one, it is the one
`data.startupPreparedId` names, and while it is connected the supervisor is disabled and
no handle is marked running; unused slots are not marked running. -/
structure Exclusive (w : World) : Prop where
  running_current : ∀ i, (w.handles i).process_running = true → w.data.currentProcess = some i
  running_wait : ∀ i, (w.handles i).process_running = true → (w.handles i).waitPending = true
  timers_idle : w.timers ≠ [] → w.data.currentProcess = none
  id_armed : w.data.launchRendererId ≠ 0 → w.timers ≠ []
  disabled_id : w.data.isEnabled = false → w.data.launchRendererId = 0
  handlers : w.startupHandlers ≠ [] →
    w.data.isEnabled = false ∧ (∀ i, (w.handles i).process_running = false) ∧
      ∃ h, w.startupHandlers = [h] ∧ w.data.startupPreparedId = some h
  unused : ∀ i, w.numHandles ≤ i → (w.handles i).process_running = false

/-- The state after `enable()`, `disable()` and `enable()` again, dispatched before any
callback of the first renderer could run. -/
def sampleReenabled : World :=
  run (init sampleConfig none) [.enable false true, .disable, .enable false true]

/-- The dispatches that C2 considers after `disable()`, apart from `startup-complete`:
everything except a new `enable()`. -/
def afterDisableEvent : Event → Bool
  | .enable _ _ => false
  | .startupComplete _ => false
  | _ => true
/-! ## Lemmas: closed forms of the handlers -/

theorem launchRenderer_world (w : World) (o : Bool) (m : X11Manager)
    (hx : w.data.x11Manager = some m) :
    (launchRenderer w o).world =
      { w with
        data := { w.data with
          reloadTime := 100
          currentProcess := some w.numHandles
          x11Manager := some { m with client := some w.numHandles } }
        numHandles := w.numHandles + 1
        handles := fun i =>
          if i = w.numHandles then launchedHandle w.cfg w.numHandles o else w.handles i } := by
  cases o <;> cases hw : w.cfg.wayland <;>
    simp [launchRenderer, LaunchSubprocess.new, LaunchSubprocess.set_cwd,
      LaunchSubprocess.spawnv, LaunchSubprocess.spawnv_finish, LaunchSubprocess.read_output,
      setHandle, hx, hw, launchedHandle] <;>
    (funext i; split <;> rfl)

theorem killCurrentProcess_eq (w : World) : killCurrentProcess w = signalCurrent (rearm w) :=
  rfl

theorem filter_timers_of_shape (w : World) (h : Inv w) :
    w.timers.filter (fun t => t.1 != w.data.launchRendererId) = [] := by
  rcases h.timers_shape with h0 | ⟨h1, _⟩
  · simp [h0]
  · rw [h1]; simp

theorem rearm_idle (w : World) (hid : w.data.launchRendererId = 0) : rearm w = w := by
  simp [rearm, hid]

theorem rearm_disabled (w : World) (h : Inv w) (hid : w.data.launchRendererId ≠ 0)
    (he : w.data.isEnabled = false) :
    rearm w = { w with timers := [], data := { w.data with launchRendererId := 0 } } := by
  simp [rearm, hid, he, source_remove, filter_timers_of_shape w h]

theorem rearm_enabled (w : World) (h : Inv w) (hid : w.data.launchRendererId ≠ 0)
    (he : w.data.isEnabled = true) :
    rearm w =
      { w with
        timers := [(w.nextSourceId, w.data.reloadTime)]
        nextSourceId := w.nextSourceId + 1
        data := { w.data with launchRendererId := w.nextSourceId } } := by
  simp [rearm, hid, he, source_remove, timeout_add, filter_timers_of_shape w h]

theorem timers_cleared (v : World)
    (hts : v.timers = [] ∨
      (v.timers = [(v.data.launchRendererId, v.data.reloadTime)] ∧ v.data.launchRendererId ≠ 0)) :
    (if v.data.launchRendererId ≠ 0 then
        v.timers.filter (fun t => t.1 != v.data.launchRendererId) else v.timers) = [] := by
  rcases hts with h0 | ⟨h1, h2⟩
  · simp [h0]
  · rw [h1]; simp [h2]

theorem exit_callback_stale (v : World) (obj : Nat) (st : ExitStatus)
    (h : ∀ c, v.data.currentProcess = some c → (v.handles c).subprocess ≠ some obj) :
    exit_callback v obj st = ⟨v, none⟩ := by
  unfold exit_callback
  split
  · rfl
  · rename_i c hc
    simp [h c hc]

theorem exit_callback_current (v : World) (c obj : Nat) (m : X11Manager) (st : ExitStatus)
    (hc : v.data.currentProcess = some c) (hs : (v.handles c).subprocess = some obj)
    (hm : v.data.x11Manager = some m)
    (hts : v.timers = [] ∨
      (v.timers = [(v.data.launchRendererId, v.data.reloadTime)] ∧ v.data.launchRendererId ≠ 0)) :
    exit_callback v obj st = ⟨afterExit v m st, none⟩ := by
  have hf := timers_cleared v hts
  unfold exit_callback afterExit reloadTimeAfter
  simp only [hc, hs, hm, ne_eq, not_true_eq_false, if_false]
  cases he : v.data.isEnabled
  · simp
  · by_cases hid : v.data.launchRendererId = 0
    · simp [hid] at hf
      simp [hid, timeout_add, hf]
    · simp [hid] at hf
      simpa [hid, timeout_add, source_remove] using hf

/-! ## Lemmas: the invariant -/

theorem inv_init (cfg : Config) (proc : Option (List ProcEntry)) : Inv (init cfg proc) := by
  constructor <;> simp [init, LaunchSubprocess.blank]

theorem inv_launchRenderer (w : World) (o : Bool) (hx : w.data.x11Manager ≠ none)
    (ht : w.timers = []) (hid : w.data.launchRendererId < w.nextSourceId)
    (hs : ∀ i q, (w.handles i).subprocess = some q → q = i) :
    Inv (launchRenderer w o).world := by
  obtain ⟨m, hm⟩ := Option.ne_none_iff_exists'.mp hx
  rw [launchRenderer_world w o m hm]
  constructor
  · simp [ht]
  · simpa using hid
  · simp [ht]
  · simp
  · simp
  · intro i q
    simp only
    split
    · cases o <;> simp [launchedHandle]
      intro h; omega
    · exact hs i q
  · intro c q
    cases o <;> simp [launchedHandle]
    all_goals intro h; subst h; simp
  · simp

theorem inv_rearm (w : World) (h : Inv w) : Inv (rearm w) := by
  by_cases hid : w.data.launchRendererId = 0
  · rw [rearm_idle w hid]; exact h
  · have hx : w.data.x11Manager ≠ none := fun hn => hid (h.x11 hn).2.2
    have hpos : 0 < w.nextSourceId := by have := h.id_lt; omega
    cases he : w.data.isEnabled
    · rw [rearm_disabled w h hid he]
      exact ⟨by simp, by simpa using hpos, by simp, h.current_reload, h.current_lt,
        h.sub_self, h.current_watched, fun hn => absurd hn hx⟩
    · rw [rearm_enabled w h hid he]
      exact ⟨by simp; omega, by simp, by simp [he], h.current_reload, h.current_lt,
        h.sub_self, h.current_watched, fun hn => absurd hn hx⟩

theorem inv_setHandle (w : World) (h : Inv w) (c : Nat) (x : LaunchSubprocess)
    (hsub : x.subprocess = (w.handles c).subprocess)
    (hwatch : x.exitWatched = (w.handles c).exitWatched) : Inv (setHandle w c x) := by
  refine ⟨h.timers_shape, h.id_lt, h.disabled_timers, h.current_reload, h.current_lt,
    ?_, ?_, h.x11⟩
  · intro i q
    simp only [setHandle]
    split
    · rename_i hi; subst hi; rw [hsub]; exact h.sub_self i q
    · exact h.sub_self i q
  · intro d q hd
    simp only [setHandle]
    split
    · rename_i hi; subst hi; rw [hsub, hwatch]; exact h.current_watched d q hd
    · exact h.current_watched d q hd

theorem inv_signalCurrent (w : World) (h : Inv w) : Inv (signalCurrent w).world := by
  unfold signalCurrent
  split
  · exact h
  · split
    · exact h
    · split
      · exact h
      · exact inv_setHandle w h _ _ rfl rfl

theorem inv_killCurrentProcess (w : World) (h : Inv w) : Inv (killCurrentProcess w).world := by
  rw [killCurrentProcess_eq]
  exact inv_signalCurrent _ (inv_rearm w h)

theorem inv_afterExit (v : World) (m : X11Manager) (st : ExitStatus)
    (hd : v.data.isEnabled = false → v.timers = [])
    (hid : v.data.launchRendererId < v.nextSourceId)
    (hsub : ∀ i q, (v.handles i).subprocess = some q → q = i) : Inv (afterExit v m st) := by
  unfold afterExit
  cases he : v.data.isEnabled
  · exact ⟨by simp [hd he], by simpa using hid, by simp [hd he], by simp, by simp, hsub,
      by simp, by simp⟩
  · exact ⟨by simp; omega, by simp, by simp [he], by simp, by simp, hsub, by simp, by simp⟩

theorem unwatch_sub_self (w : World) (obj : Nat) (h : Inv w) :
    ∀ i q, ((unwatch w obj).handles i).subprocess = some q → q = i := by
  intro i q
  simp only [unwatch, setHandle]
  split
  · rename_i hi; subst hi; exact h.sub_self i q
  · exact h.sub_self i q

theorem completeExitWatch_eq (w : World) (obj : Nat) (st : ExitStatus) :
    completeExitWatch w obj st =
      if (w.handles obj).exitWatched then (exit_callback (unwatch w obj) obj st).world else w :=
  rfl

theorem inv_completeExitWatch (w : World) (obj : Nat) (st : ExitStatus) (h : Inv w) :
    Inv (completeExitWatch w obj st) := by
  rw [completeExitWatch_eq]
  split
  · by_cases hcur : ∃ c, w.data.currentProcess = some c ∧ (w.handles c).subprocess = some obj
    · obtain ⟨c, hc, hs⟩ := hcur
      have hco : obj = c := h.sub_self c obj hs
      subst hco
      have hx : w.data.x11Manager ≠ none := fun hn => by
        have := (h.x11 hn).1; rw [hc] at this; cases this
      obtain ⟨m, hm⟩ := Option.ne_none_iff_exists'.mp hx
      have hs2 : ((unwatch w obj).handles obj).subprocess = some obj := by
        simp [unwatch, setHandle, hs]
      rw [exit_callback_current (unwatch w obj) obj obj m st hc hs2 hm h.timers_shape]
      exact inv_afterExit _ m st h.disabled_timers h.id_lt (unwatch_sub_self w obj h)
    · have hst : ∀ c, (unwatch w obj).data.currentProcess = some c →
          ((unwatch w obj).handles c).subprocess ≠ some obj := by
        intro c hc hs
        apply hcur
        refine ⟨c, hc, ?_⟩
        simp only [unwatch, setHandle] at hs
        split at hs
        · rename_i hi; subst hi; exact hs
        · exact hs
      rw [exit_callback_stale _ obj st hst]
      refine ⟨h.timers_shape, h.id_lt, h.disabled_timers, h.current_reload, h.current_lt,
        unwatch_sub_self w obj h, ?_, h.x11⟩
      intro d q hd
      simp only [unwatch, setHandle]
      split
      · rename_i hi; subst hi
        intro hq
        have := h.sub_self d q hq
        subst this
        exact absurd ⟨q, hd, hq⟩ hcur
      · exact h.current_watched d q hd
  · exact h

theorem inv_completeWait (w : World) (k : Nat) (h : Inv w) : Inv (completeWait w k) := by
  unfold completeWait
  split
  · exact inv_setHandle _ h _ _ rfl rfl
  · exact h

theorem inv_deliverExit (w : World) (obj : Nat) (st : ExitStatus) (h : Inv w) :
    Inv (deliverExit w obj st) :=
  inv_completeWait _ obj (inv_completeExitWatch w obj st h)

theorem innerEnable_eq (w : World) (removeId o : Bool) :
    innerEnable w removeId o =
      match (disconnectStartup w removeId).data.GnomeShellOverride with
      | none => ⟨disconnectStartup w removeId, some (.typeError "data.GnomeShellOverride is null")⟩
      | some _ =>
          let w2 : World := { disconnectStartup w removeId with
            data := { (disconnectStartup w removeId).data with GnomeShellOverride := some true } }
          if w2.cfg.wayland then
            match w2.data.x11Manager with
            | none => ⟨w2, some (.typeError "data.x11Manager is null")⟩
            | some m =>
                enableAndLaunch
                  { w2 with data := { w2.data with x11Manager := some { m with enabled := true } } } o
          else enableAndLaunch w2 o := rfl

theorem inv_disconnectStartup (w : World) (r : Bool) (h : Inv w) :
    Inv (disconnectStartup w r) := by
  unfold disconnectStartup
  split
  · refine ⟨h.timers_shape, h.id_lt, h.disabled_timers, h.current_reload, h.current_lt,
      h.sub_self, h.current_watched, ?_⟩
    intro hn
    obtain ⟨a, b, c⟩ := h.x11 hn
    exact ⟨a, by simp [b], c⟩
  · exact h

theorem inv_enableAndLaunch (w : World) (o : Bool) (hx : w.data.x11Manager ≠ none)
    (hts : w.timers = [] ∨
      (w.timers = [(w.data.launchRendererId, w.data.reloadTime)] ∧ w.data.launchRendererId ≠ 0))
    (hid : w.data.launchRendererId < w.nextSourceId)
    (hs : ∀ i q, (w.handles i).subprocess = some q → q = i) :
    Inv (enableAndLaunch w o).world := by
  have hf := timers_cleared w hts
  unfold enableAndLaunch
  apply inv_launchRenderer
  · by_cases h0 : w.data.launchRendererId = 0 <;> simpa [h0, source_remove] using hx
  · by_cases h0 : w.data.launchRendererId = 0
    · simpa [h0] using hf
    · simp only [ne_eq, h0, not_false_eq_true, if_true] at hf
      simpa [h0, source_remove] using hf
  · by_cases h0 : w.data.launchRendererId = 0 <;> simpa [h0, source_remove] using hid
  · by_cases h0 : w.data.launchRendererId = 0 <;> simpa [h0, source_remove] using hs

theorem inv_innerEnable (w : World) (r o : Bool) (h : Inv w) (hx : w.data.x11Manager ≠ none) :
    Inv (innerEnable w r o).world := by
  rw [innerEnable_eq]
  have hd := inv_disconnectStartup w r h
  have hxd : (disconnectStartup w r).data.x11Manager ≠ none := by
    unfold disconnectStartup; split <;> exact hx
  generalize disconnectStartup w r = v at hd hxd
  split
  · exact hd
  · simp only
    split
    · split
      · exact absurd ‹_› hxd
      · exact inv_enableAndLaunch _ o (by simp) hd.timers_shape hd.id_lt hd.sub_self
    · exact inv_enableAndLaunch _ o hxd hd.timers_shape hd.id_lt hd.sub_self

theorem enable_eq (w : World) (s o : Bool) :
    enable w s o =
      if s then
        ⟨{ createCollaborators w with
            startupHandlers := (createCollaborators w).startupHandlers ++ [(createCollaborators w).nextHandlerId]
            nextHandlerId := (createCollaborators w).nextHandlerId + 1
            data := { (createCollaborators w).data with
              startupPreparedId := some (createCollaborators w).nextHandlerId } }, none⟩
      else innerEnable (createCollaborators w) false o := rfl

theorem createCollaborators_form (w : World) :
    ∃ g m, createCollaborators w =
      { w with data := { w.data with GnomeShellOverride := some g, x11Manager := some m } } := by
  obtain ⟨cfg, data, handles, n, timers, nx, sh, nh, killed⟩ := w
  obtain ⟨e, id, cur, rt, g, x, sp⟩ := data
  cases g <;> cases x <;> simp [createCollaborators]

theorem createCollaborators_x11 (w : World) : (createCollaborators w).data.x11Manager ≠ none := by
  obtain ⟨g, m, h⟩ := createCollaborators_form w
  rw [h]; simp

theorem inv_createCollaborators (w : World) (h : Inv w) : Inv (createCollaborators w) := by
  obtain ⟨g, m, hc⟩ := createCollaborators_form w
  rw [hc]
  exact ⟨h.timers_shape, h.id_lt, h.disabled_timers, h.current_reload, h.current_lt,
    h.sub_self, h.current_watched, fun hn => absurd hn (by simp)⟩

theorem inv_enable (w : World) (s o : Bool) (h : Inv w) : Inv (enable w s o).world := by
  rw [enable_eq]
  have hc := inv_createCollaborators w h
  have hx := createCollaborators_x11 w
  generalize createCollaborators w = v at hc hx
  split
  · exact ⟨hc.timers_shape, hc.id_lt, hc.disabled_timers, hc.current_reload, hc.current_lt,
      hc.sub_self, hc.current_watched, fun hn => absurd hn hx⟩
  · exact inv_innerEnable v false o hc hx

theorem rearm_after_disable (w : World) (h : Inv w) :
    rearm { w with data := { w.data with isEnabled := false } } =
      { w with timers := [], data := { w.data with isEnabled := false, launchRendererId := 0 } } := by
  by_cases hid : w.data.launchRendererId = 0
  · have ht : w.timers = [] := by
      rcases h.timers_shape with h0 | ⟨_, h2⟩
      · exact h0
      · exact absurd hid h2
    simp [rearm, hid, ht]
  · simp [rearm, hid, source_remove, filter_timers_of_shape w h]

theorem inv_after_disable (w : World) (h : Inv w) :
    Inv { w with timers := [], data := { w.data with isEnabled := false, launchRendererId := 0 } } := by
  have hpos : 0 < w.nextSourceId := by
    rcases Nat.eq_zero_or_pos w.nextSourceId with h0 | h0
    · have := h.id_lt; omega
    · exact h0
  exact ⟨by simp, by simpa using hpos, by simp, h.current_reload, h.current_lt, h.sub_self,
    h.current_watched, fun hn => ⟨(h.x11 hn).1, (h.x11 hn).2.1, rfl⟩⟩

theorem inv_transfer (v v' : World) (h : Inv v) (h1 : v'.timers = v.timers)
    (h2 : v'.data.launchRendererId = v.data.launchRendererId)
    (h3 : v'.data.reloadTime = v.data.reloadTime) (h4 : v'.nextSourceId = v.nextSourceId)
    (h5 : v'.data.isEnabled = v.data.isEnabled)
    (h6 : v'.data.currentProcess = v.data.currentProcess)
    (h7 : v'.numHandles = v.numHandles) (h8 : v'.handles = v.handles)
    (h9 : v'.startupHandlers = v.startupHandlers)
    (h10 : v'.data.x11Manager = none → v.data.x11Manager = none) : Inv v' := by
  refine ⟨?_, ?_, ?_, ?_, ?_, ?_, ?_, ?_⟩
  · rw [h1, h2, h3]; exact h.timers_shape
  · rw [h2, h4]; exact h.id_lt
  · rw [h1, h5]; exact h.disabled_timers
  · rw [h3, h6]; exact h.current_reload
  · rw [h6, h7]; exact h.current_lt
  · rw [h8]; exact h.sub_self
  · rw [h6, h8]; exact h.current_watched
  · intro hn; rw [h6, h9, h2]; exact h.x11 (h10 hn)

theorem disable_world (w : World) :
    (disable w).thrown = none →
      ∃ m, (disable w).world =
        { (killCurrentProcess { w with data := { w.data with isEnabled := false } }).world with
          data := { (killCurrentProcess { w with data := { w.data with isEnabled := false } }).world.data with
            GnomeShellOverride := some false, x11Manager := some m } } := by
  unfold disable
  generalize killCurrentProcess { w with data := { w.data with isEnabled := false } } = r
  cases ht : r.thrown <;> cases hg : r.world.data.GnomeShellOverride <;>
    cases hm : r.world.data.x11Manager <;> simp [ht, hg, hm]

theorem inv_disable (w : World) (h : Inv w) : Inv (disable w).world := by
  have hk : Inv (killCurrentProcess { w with data := { w.data with isEnabled := false } }).world := by
    rw [killCurrentProcess_eq, rearm_after_disable w h]
    exact inv_signalCurrent _ (inv_after_disable w h)
  unfold disable
  generalize killCurrentProcess { w with data := { w.data with isEnabled := false } } = r at hk
  cases ht : r.thrown <;> cases hg : r.world.data.GnomeShellOverride <;>
    cases hm : r.world.data.x11Manager <;> simp only [ht, hg, hm]
  all_goals first
    | exact hk
    | exact inv_transfer _ _ hk rfl rfl rfl rfl rfl rfl rfl rfl rfl (fun _ => hm)
    | exact inv_transfer _ _ hk rfl rfl rfl rfl rfl rfl rfl rfl rfl (fun hn => by simp at hn)

theorem inv_emitStartupComplete (o : Bool) (hs : List Nat) :
    ∀ w, Inv w → Inv (emitStartupComplete o hs w) := by
  induction hs with
  | nil => intro w h; exact h
  | cons a rest ih =>
      intro w h
      simp only [emitStartupComplete]
      apply ih
      split
      · rename_i hmem
        apply inv_innerEnable w true o h
        intro hn
        rw [(h.x11 hn).2.1] at hmem
        cases hmem
      · exact h

theorem timer_armed (w : World) (h : Inv w) (id : Nat)
    (ha : w.timers.any (fun t => t.1 == id) = true) :
    w.timers = [(id, w.data.reloadTime)] ∧ w.data.launchRendererId = id ∧ id ≠ 0 := by
  rcases h.timers_shape with h0 | ⟨h1, h2⟩
  · rw [h0] at ha; simp at ha
  · rw [h1] at ha
    simp at ha
    subst ha
    exact ⟨h1, rfl, h2⟩

theorem inv_timerFired (w : World) (id : Nat) (o : Bool) (h : Inv w)
    (ha : w.timers.any (fun t => t.1 == id) = true) :
    Inv (timer_callback (source_remove w id) o).world := by
  obtain ⟨ht, hl, hne⟩ := timer_armed w h id ha
  unfold timer_callback
  apply inv_launchRenderer
  · intro hn
    have := (h.x11 hn).2.2
    omega
  · simp [source_remove, ht]
  · have := h.id_lt
    simp [source_remove]
    omega
  · exact h.sub_self

theorem inv_step (w : World) (e : Event) (h : Inv w) : Inv (step w e) := by
  cases e with
  | enable s o => exact inv_enable w s o h
  | disable => exact inv_disable w h
  | killCurrentProcess => exact inv_killCurrentProcess w h
  | startupComplete o => exact inv_emitStartupComplete o _ w h
  | timerFired id o =>
      simp only [step]
      split
      · rename_i ha; exact inv_timerFired w id o h ha
      · exact h
  | processExited obj st => exact inv_deliverExit w obj st h
  | waitCancelled k =>
      simp only [step]
      split
      · exact inv_completeWait w k h
      · exact h

theorem inv_run (evs : List Event) : ∀ w, Inv w → Inv (run w evs) := by
  induction evs with
  | nil => intro w h; exact h
  | cons e rest ih => intro w h; exact ih _ (inv_step w e h)

theorem inv_of_reachable (w : World) (h : Reachable w) : Inv w := by
  obtain ⟨cfg, proc, evs, rfl⟩ := h
  exact inv_run evs _ (inv_init cfg proc)


/-! ## Lemmas: fields left alone by the callbacks -/

@[simp] theorem completeWait_timers (w : World) (k : Nat) :
    (completeWait w k).timers = w.timers := by
  unfold completeWait; split <;> rfl

@[simp] theorem completeWait_data (w : World) (k : Nat) :
    (completeWait w k).data = w.data := by
  unfold completeWait; split <;> rfl

@[simp] theorem completeWait_numHandles (w : World) (k : Nat) :
    (completeWait w k).numHandles = w.numHandles := by
  unfold completeWait; split <;> rfl

@[simp] theorem completeWait_nextSourceId (w : World) (k : Nat) :
    (completeWait w k).nextSourceId = w.nextSourceId := by
  unfold completeWait; split <;> rfl

@[simp] theorem completeWait_exitWatched (w : World) (k i : Nat) :
    ((completeWait w k).handles i).exitWatched = (w.handles i).exitWatched := by
  unfold completeWait
  split
  · simp only [setHandle]
    split
    · rename_i hi; subst hi; rfl
    · rfl
  · rfl

@[simp] theorem completeWait_subprocess (w : World) (k i : Nat) :
    ((completeWait w k).handles i).subprocess = (w.handles i).subprocess := by
  unfold completeWait
  split
  · simp only [setHandle]
    split
    · rename_i hi; subst hi; rfl
    · rfl
  · rfl

@[simp] theorem signalCurrent_timers (w : World) : (signalCurrent w).world.timers = w.timers := by
  unfold signalCurrent
  split
  · rfl
  · split
    · rfl
    · split <;> rfl

@[simp] theorem signalCurrent_data (w : World) : (signalCurrent w).world.data = w.data := by
  unfold signalCurrent
  split
  · rfl
  · split
    · rfl
    · split <;> rfl

@[simp] theorem signalCurrent_numHandles (w : World) :
    (signalCurrent w).world.numHandles = w.numHandles := by
  unfold signalCurrent
  split
  · rfl
  · split
    · rfl
    · split <;> rfl

@[simp] theorem signalCurrent_nextSourceId (w : World) :
    (signalCurrent w).world.nextSourceId = w.nextSourceId := by
  unfold signalCurrent
  split
  · rfl
  · split
    · rfl
    · split <;> rfl

theorem deliverExit_current (w : World) (c obj : Nat) (st : ExitStatus) (h : Inv w)
    (hc : w.data.currentProcess = some c) (hs : (w.handles c).subprocess = some obj) :
    ∃ m, w.data.x11Manager = some m ∧
      deliverExit w obj st = completeWait (afterExit (unwatch w obj) m st) obj := by
  have hco : obj = c := h.sub_self c obj hs
  subst hco
  have hx : w.data.x11Manager ≠ none := fun hn => by
    have := (h.x11 hn).1; rw [hc] at this; cases this
  obtain ⟨m, hm⟩ := Option.ne_none_iff_exists'.mp hx
  refine ⟨m, hm, ?_⟩
  have hs2 : ((unwatch w obj).handles obj).subprocess = some obj := by
    simp [unwatch, setHandle, hs]
  have hw := h.current_watched obj obj hc hs
  unfold deliverExit
  rw [completeExitWatch_eq, if_pos hw,
    exit_callback_current (unwatch w obj) obj obj m st hc hs2 hm h.timers_shape]

/-! ## C1: restart delay chosen by the exit handler -/

/-- C1: in every reachable state, when the exit notification of the currently active
process (handle `c`, subprocess `obj`) is delivered while the supervisor is enabled, the
exit handler leaves exactly one armed restart timer, the one `data.launchRendererId`
names, and its delay is 1000 after a nonzero exit code or a death by signal and 100
after exit code 0. -/
theorem exit_of_current_arms_expected_delay (w : World) (c obj : Nat) (st : ExitStatus)
    (hr : Reachable w) (he : w.data.isEnabled = true)
    (hc : w.data.currentProcess = some c) (hs : (w.handles c).subprocess = some obj) :
    (step w (.processExited obj st)).timers = [(w.nextSourceId, expectedRestartDelay st)] ∧
      (step w (.processExited obj st)).data.launchRendererId = w.nextSourceId ∧
      (step w (.processExited obj st)).data.currentProcess = none := by
  have h := inv_of_reachable w hr
  obtain ⟨m, _, hd⟩ := deliverExit_current w c obj st h hc hs
  have hrt : w.data.reloadTime = 100 := h.current_reload c hc
  have hdelay : reloadTimeAfter st 100 = expectedRestartDelay st := by
    cases st with
    | exited code => cases code <;> simp [reloadTimeAfter, expectedRestartDelay]
    | signaled s => simp [reloadTimeAfter, expectedRestartDelay]
  have hen : (unwatch w obj).data.isEnabled = true := he
  have hrt2 : (unwatch w obj).data.reloadTime = 100 := hrt
  have hnx : (unwatch w obj).nextSourceId = w.nextSourceId := rfl
  refine ⟨?_, ?_, ?_⟩ <;>
    simp [step, hd, afterExit, hen, hrt2, hdelay, hnx]

/-- Witness for C1: the renderer launched by `enable()` exits with code 1. -/
theorem exit_of_current_arms_expected_delay_witness :
    sampleRunning.data.isEnabled = true ∧
      (step sampleRunning (.processExited 0 (.exited 1))).timers = [(1, 1000)] :=
  ⟨rfl, (exit_of_current_arms_expected_delay sampleRunning 0 0 (.exited 1)
    ⟨sampleConfig, none, [.enable false true], rfl⟩ rfl rfl rfl).1⟩

/-! ## C5: the timer re-armed by killCurrentProcess -/

/-- C5, counterexample: after the renderer exited with code 1 the supervisor is enabled
and the slow timer (id 1, delay 1000) is pending; `killCurrentProcess()` cancels it and
arms timer 2 with delay 1000, not with the fast value 100. -/
theorem kill_rearm_keeps_slow_delay :
    sampleAfterCrash.data.isEnabled = true ∧ sampleAfterCrash.timers = [(1, 1000)] ∧
      (killCurrentProcess sampleAfterCrash).world.timers = [(2, 1000)] := by
  decide

/-- C5, amended: in every reachable enabled state with a pending restart timer `(t, d)`,
`killCurrentProcess()` cancels it and arms exactly one new timer, with a fresh id that
`data.launchRendererId` then names, whose delay is the current `data.reloadTime`, which
is the delay `d` of the cancelled timer. -/
theorem kill_rearms_with_current_reloadTime (w : World) (t d : Nat) (hr : Reachable w)
    (he : w.data.isEnabled = true) (hp : (t, d) ∈ w.timers) :
    (killCurrentProcess w).world.timers = [(w.nextSourceId, w.data.reloadTime)] ∧
      (killCurrentProcess w).world.data.launchRendererId = w.nextSourceId ∧
      w.nextSourceId ≠ t ∧ d = w.data.reloadTime := by
  have h := inv_of_reachable w hr
  rcases h.timers_shape with h0 | ⟨h1, h2⟩
  · rw [h0] at hp; cases hp
  · rw [h1] at hp
    simp only [List.mem_singleton, Prod.mk.injEq] at hp
    obtain ⟨ht, hd⟩ := hp
    have hlt := h.id_lt
    rw [killCurrentProcess_eq]
    refine ⟨?_, ?_, by omega, hd⟩
    · rw [signalCurrent_timers, rearm_enabled w h h2 he]
    · rw [signalCurrent_data, rearm_enabled w h h2 he]

/-- Witness for C5 amended: the slow timer pending after a crash is replaced by a timer
with the same delay 1000. -/
theorem kill_rearms_with_current_reloadTime_witness :
    (1, 1000) ∈ sampleAfterCrash.timers ∧
      (killCurrentProcess sampleAfterCrash).world.timers =
        [(sampleAfterCrash.nextSourceId, sampleAfterCrash.data.reloadTime)] :=
  ⟨by decide, (kill_rearms_with_current_reloadTime sampleAfterCrash 1 1000
    ⟨sampleConfig, none, [.enable false true, .processExited 0 (.exited 1)], rfl⟩
    (by decide) (by decide)).1⟩

/-! ## C2: events after disable() -/

/-- C2, the code at the failing input: `enable()` runs while the desktop is starting up
and connects a `startup-complete` handler; `disable()` then returns normally, leaves the
supervisor disabled with nothing launched, and leaves that handler connected; when the
host emits `startup-complete`, `innerEnable` runs, sets `isEnabled` and `launchRenderer`
spawns a renderer. -/
theorem startup_complete_after_disable_spawns :
    (disable sampleStarting).thrown = none ∧
      (disable sampleStarting).world.data.isEnabled = false ∧
      (disable sampleStarting).world.numHandles = 0 ∧
      (disable sampleStarting).world.startupHandlers = [1] ∧
      (step (disable sampleStarting).world (.startupComplete true)).numHandles = 1 ∧
      ((step (disable sampleStarting).world (.startupComplete true)).handles 0).process_running
        = true ∧
      (step (disable sampleStarting).world (.startupComplete true)).data.isEnabled = true := by
  decide

/-! ## C6: the OS refuses to create the process -/

/-- A fresh handle survives a refused spawn: `spawnv` returns `null` and does not throw. -/
theorem spawnv_refused_returns_null (cfg : Config) (sid : Nat) (argv : List String) :
    (((LaunchSubprocess.new cfg.wayland 0 "Hanabi" "-U").set_cwd cfg.homeDir).1.spawnv
      cfg.wayland sid false argv).2 = .ok none := by
  cases hw : cfg.wayland <;>
    simp [LaunchSubprocess.new, LaunchSubprocess.set_cwd, LaunchSubprocess.spawnv,
      LaunchSubprocess.spawnv_finish]

/-- In any state, `launchRenderer` throws when the spawn is refused and leaves the timers
and `data.launchRendererId` as they were. -/
theorem launchRenderer_refused_throws (w : World) :
    (launchRenderer w false).thrown ≠ none ∧
      (launchRenderer w false).world.timers = w.timers ∧
      (launchRenderer w false).world.data.launchRendererId = w.data.launchRendererId := by
  cases hw : w.cfg.wayland <;> cases hx : w.data.x11Manager <;>
    simp [launchRenderer, LaunchSubprocess.new, LaunchSubprocess.set_cwd,
      LaunchSubprocess.spawnv, LaunchSubprocess.spawnv_finish, setHandle, hw, hx]

/-- C6, the code at the failing input: a restart is scheduled, its timer fires and the OS
refuses the spawn. `spawnv` returns `null` without throwing, but `launchRenderer` throws a
`TypeError` on `data.currentProcess.subprocess.wait_async`; afterwards the supervisor is
enabled, no timer is armed, `data.launchRendererId` is 0 and `data.currentProcess` is a
handle without subprocess whose exit callback is not registered: no restart follows. -/
theorem spawn_refused_arms_no_timer :
    sampleRestartScheduled.data.isEnabled = true ∧
      sampleRestartScheduled.timers = [(1, 100)] ∧
      (((LaunchSubprocess.new true 0 "Hanabi" "-U").set_cwd "/home/u").1.spawnv
        true 1 false ["/ext/renderer.js", "-P", "/ext"]).2 = .ok none ∧
      (timer_callback (source_remove sampleRestartScheduled 1) false).thrown =
        some (.typeError "data.currentProcess.subprocess is null") ∧
      (step sampleRestartScheduled (.timerFired 1 false)).timers = [] ∧
      (step sampleRestartScheduled (.timerFired 1 false)).data.launchRendererId = 0 ∧
      (step sampleRestartScheduled (.timerFired 1 false)).data.isEnabled = true ∧
      (step sampleRestartScheduled (.timerFired 1 false)).data.currentProcess = some 1 ∧
      ((step sampleRestartScheduled (.timerFired 1 false)).handles 1).subprocess = none ∧
      ((step sampleRestartScheduled (.timerFired 1 false)).handles 1).exitWatched = false :=
  ⟨by decide, by decide, rfl, by decide, by decide, by decide, by decide, by decide,
    by decide, by decide⟩

/-! ## C7: query_window_belongs_to -/

/-- C7: for every handle, compositor, window and behaviour of `owns_window`,
`query_window_belongs_to` returns a boolean (it never throws, and as a method without
assignments it changes no state); the boolean is `false` when the compositor is not
Wayland, when `process_running` is false, and when `owns_window` throws; otherwise, on a
handle whose Wayland client was created by the constructor, it is the result of
`owns_window`. -/
theorem query_window_belongs_to_safe (self : LaunchSubprocess) (wayland : Bool)
    (owns : Nat → Except JsError Bool) (window : Nat) :
    (∃ b, self.query_window_belongs_to wayland owns window = .ok b) ∧
      (wayland = false → self.query_window_belongs_to wayland owns window = .ok false) ∧
      (self.process_running = false →
        self.query_window_belongs_to wayland owns window = .ok false) ∧
      (∀ e, owns window = .error e →
        self.query_window_belongs_to wayland owns window = .ok false) ∧
      (∀ r, wayland = true → self.process_running = true → self._waylandClient = true →
        owns window = .ok r → self.query_window_belongs_to wayland owns window = .ok r) := by
  unfold LaunchSubprocess.query_window_belongs_to
  cases wayland <;> cases hr : self.process_running <;> cases hc : self._waylandClient <;>
    cases ho : owns window <;> simp

/-- Witness for C7: a running handle under Wayland whose `owns_window` throws. -/
theorem query_window_belongs_to_safe_witness :
    sampleHandle.query_window_belongs_to true (fun _ => .error (.gerror "unsupported")) 7 =
      .ok false :=
  (query_window_belongs_to_safe sampleHandle true (fun _ => .error (.gerror "unsupported"))
    7).2.2.2.1 (.gerror "unsupported") rfl

/-! ## C8: the read loop -/

/-- C8, counterexample: on a handle whose input stream is set, a read error other than
a cancellation is logged once and another read is scheduled; an end of stream logs
nothing and another read is scheduled as well. The loop does not end. -/
theorem read_error_schedules_another_read :
    sampleHandle._dataInputStream = true ∧
      (sampleHandle.read_line_callback (.failed false "EIO")).2 =
        [LogEntry.logError "EIO" "Hanabi_Error"] ∧
      (sampleHandle.read_line_callback (.failed false "EIO")).1.readPending = true ∧
      (sampleHandle.read_line_callback .eof).2 = [] ∧
      (sampleHandle.read_line_callback .eof).1.readPending = true := by
  decide

/-- C8, amended: for every handle and every completion of a line read: a cancellation
logs nothing and schedules no further read; an end of stream logs nothing, and any other
read error is reported exactly once to the logging sink; in these two cases a further
read is scheduled exactly when the handle still has its input stream (the loop ends once
the `wait_async` callback of `spawnv` has cleared `_dataInputStream`). -/
theorem read_line_callback_outcomes (self : LaunchSubprocess) :
    (∀ what, (self.read_line_callback (.failed true what)).2 = [] ∧
        (self.read_line_callback (.failed true what)).1.readPending = false) ∧
      ((self.read_line_callback .eof).2 = [] ∧
        (self.read_line_callback .eof).1.readPending = self._dataInputStream) ∧
      (∀ what, (self.read_line_callback (.failed false what)).2 =
          [LogEntry.logError what (self._process_id ++ "_Error")] ∧
        (self.read_line_callback (.failed false what)).1.readPending =
          self._dataInputStream) := by
  cases hs : self._dataInputStream <;>
    simp [LaunchSubprocess.read_line_callback, LaunchSubprocess.read_output, hs]

/-! ## C9: the reaper -/

theorem reapLoop_eq_filter (cfg : Config) (children : List ProcEntry)
    (hn : ∀ info ∈ children, info.filename ≠ "") :
    reapLoop cfg children =
      (children.filter (isStaleRenderer cfg)).map ProcEntry.filename := by
  induction children with
  | nil => rfl
  | cons info rest ih =>
      have hrest : ∀ i ∈ rest, i.filename ≠ "" := fun i hi => hn i (List.mem_cons_of_mem _ hi)
      have hinfo : info.filename ≠ "" := hn info (List.mem_cons_self _ _)
      simp only [reapLoop, hinfo, if_false, ih hrest]
      cases hc : info.cmdline with
      | none => simp [isStaleRenderer, hc]
      | some readData =>
          by_cases hp : (rendererSignature cfg).isPrefixOf (decodeCmdline readData) = true
          · simp [isStaleRenderer, hc, hp]
          · simp [isStaleRenderer, hc, hp]

/-- C9: for every listing of the children of `/proc` (each with a name), `init()` runs
`/bin/kill` and waits, in listing order, for exactly the entries whose `cmdline` file
exists and whose command line, decoded with every byte below 32 turned into a space,
starts with `"gjs "` followed by the renderer path; and `init()` creates no handle, so
all of them are terminated before the first spawn. -/
theorem init_reaps_exactly_stale_renderers (cfg : Config) (children : List ProcEntry)
    (hn : ∀ info ∈ children, info.filename ≠ "") :
    (init cfg (some children)).killed =
        (children.filter (isStaleRenderer cfg)).map ProcEntry.filename ∧
      (init cfg (some children)).numHandles = 0 ∧
      (init cfg (some children)).data.currentProcess = none :=
  ⟨reapLoop_eq_filter cfg children hn, rfl, rfl⟩

/-- Witness for C9: two stale renderers pre-exist; both are killed by `init()`, before
any handle exists. -/
theorem init_reaps_exactly_stale_renderers_witness :
    (init sampleConfig (some sampleProc)).killed = ["1201", "1377"] ∧
      (init sampleConfig (some sampleProc)).numHandles = 0 :=
  ⟨(init_reaps_exactly_stale_renderers sampleConfig sampleProc (by decide)).1.trans
      (by decide),
    (init_reaps_exactly_stale_renderers sampleConfig sampleProc (by decide)).2.1⟩

/-! ## C10: the argument vector -/

/-- Whatever the compositor, `spawnv` hands the caller's `argv` to the platform
unchanged. -/
theorem spawnv_passes_argv_unchanged (self : LaunchSubprocess) (wayland : Bool) (sid : Nat)
    (osCreates : Bool) (argv : List String)
    (hok : ∃ r, (self.spawnv wayland sid osCreates argv).2 = .ok r) :
    (self.spawnv wayland sid osCreates argv).1.spawnArgv = some argv := by
  obtain ⟨r, hr⟩ := hok
  revert hr
  cases wayland <;> cases hc : self._waylandClient <;> cases hl : self._launcher <;>
    cases osCreates <;>
    simp [LaunchSubprocess.spawnv, LaunchSubprocess.spawnv_finish,
      LaunchSubprocess.read_output, hc, hl]

/-- C10, the code at the failing input: under Wayland, the renderer handle is built with
`cmd_parameter = "-U"`, and the argument vector handed to the spawn is the renderer path,
`"-P"` and the extension path; it does not contain `"-U"`. -/
theorem wayland_argv_lacks_cmd_parameter :
    sampleRunning.cfg.wayland = true ∧
      (sampleRunning.handles 0)._cmd_parameter = "-U" ∧
      (sampleRunning.handles 0).spawnArgv = some ["/ext/renderer.js", "-P", "/ext"] ∧
      "-U" ∉ ["/ext/renderer.js", "-P", "/ext"] := by
  decide

/-! ## C4: one relaunch after killCurrentProcess -/

theorem timerFired_world (w : World) (id : Nat) (o : Bool) (h : Inv w)
    (ha : w.timers.any (fun t => t.1 == id) = true) :
    ∃ m, step w (.timerFired id o) =
      { w with
        timers := []
        data := { w.data with
          launchRendererId := 0
          reloadTime := 100
          currentProcess := some w.numHandles
          x11Manager := some m }
        numHandles := w.numHandles + 1
        handles := fun i =>
          if i = w.numHandles then launchedHandle w.cfg w.numHandles o else w.handles i } := by
  obtain ⟨ht, hl, hne⟩ := timer_armed w h id ha
  have hx : w.data.x11Manager ≠ none := fun hn => by
    have := (h.x11 hn).2.2; omega
  obtain ⟨m, hm⟩ := Option.ne_none_iff_exists'.mp hx
  refine ⟨{ m with client := some w.numHandles }, ?_⟩
  simp only [step, ha, if_true, timer_callback]
  rw [launchRenderer_world _ o m (by simpa [source_remove] using hm)]
  simp [source_remove, ht]

theorem deliverExit_stale (w : World) (obj : Nat) (st : ExitStatus)
    (hw : (w.handles obj).exitWatched = true)
    (hst : ∀ c, w.data.currentProcess = some c → (w.handles c).subprocess ≠ some obj) :
    deliverExit w obj st = completeWait (unwatch w obj) obj := by
  have hst2 : ∀ c, (unwatch w obj).data.currentProcess = some c →
      ((unwatch w obj).handles c).subprocess ≠ some obj := by
    intro c hc hs
    apply hst c hc
    simp only [unwatch, setHandle] at hs
    split at hs
    · rename_i hi; subst hi; exact hs
    · exact hs
  unfold deliverExit
  rw [completeExitWatch_eq, if_pos hw, exit_callback_stale _ obj st hst2]

theorem unwatch_exitWatched (w : World) (obj : Nat) :
    ((unwatch w obj).handles obj).exitWatched = false := by
  simp [unwatch, setHandle]

theorem waitCancelled_step (w : World) (k : Nat) :
    (step w (.waitCancelled k)).timers = w.timers ∧
      (step w (.waitCancelled k)).data = w.data ∧
      (step w (.waitCancelled k)).numHandles = w.numHandles ∧
      (∀ i, ((step w (.waitCancelled k)).handles i).exitWatched = (w.handles i).exitWatched) ∧
      (∀ i, ((step w (.waitCancelled k)).handles i).subprocess = (w.handles i).subprocess) := by
  simp only [step]
  split
  · exact ⟨completeWait_timers w k, completeWait_data w k, completeWait_numHandles w k,
      completeWait_exitWatched w k, completeWait_subprocess w k⟩
  · exact ⟨rfl, rfl, rfl, fun _ => rfl, fun _ => rfl⟩

theorem settles_done (c n : Nat) (evs : List Event) :
    ∀ w : World, (w.handles c).exitWatched = false → w.timers = [] →
      w.numHandles = n + 1 → w.data.currentProcess = some n → settles c w evs = true →
      (run w evs).numHandles = n + 1 ∧ (run w evs).data.currentProcess = some n := by
  induction evs with
  | nil => intro w _ _ hn hc _; exact ⟨hn, hc⟩
  | cons e rest ih =>
      intro w hw ht hn hc hs
      cases e with
      | waitCancelled k =>
          obtain ⟨g1, g2, g3, g4, _⟩ := waitCancelled_step w k
          simp only [settles, Bool.true_and] at hs
          exact ih _ (by rw [g4]; exact hw) (by rw [g1]; exact ht) (by rw [g3]; exact hn)
            (by rw [g2]; exact hc) hs
      | processExited obj st => simp [settles, hw] at hs
      | timerFired id o => simp [settles, ht] at hs
      | enable s o => simp [settles] at hs
      | disable => simp [settles] at hs
      | killCurrentProcess => simp [settles] at hs
      | startupComplete o => simp [settles] at hs

theorem settles_after_exit (c n : Nat) (evs : List Event) :
    ∀ w : World, Inv w → (w.handles c).exitWatched = false → w.timers ≠ [] →
      w.numHandles = n → c < n → settles c w evs = true →
      (run w evs).numHandles = n + 1 ∧ (run w evs).data.currentProcess = some n := by
  induction evs with
  | nil => intro w _ hw ht _ _ hs; simp [settles, hw, ht] at hs
  | cons e rest ih =>
      intro w h hw ht hn hcn hs
      cases e with
      | waitCancelled k =>
          obtain ⟨g1, _, g3, g4, _⟩ := waitCancelled_step w k
          simp only [settles, Bool.true_and] at hs
          exact ih _ (inv_step w _ h) (by rw [g4]; exact hw) (by rw [g1]; exact ht)
            (by rw [g3]; exact hn) hcn hs
      | timerFired id o =>
          simp only [settles, Bool.and_eq_true] at hs
          obtain ⟨ha, hrest⟩ := hs
          obtain ⟨m, hstep⟩ := timerFired_world w id o h ha
          have hne : c ≠ w.numHandles := by omega
          refine settles_done c n rest _ ?_ ?_ ?_ ?_ hrest
          · rw [hstep]; simp [hne, hw]
          · rw [hstep]
          · rw [hstep]; simp [hn]
          · rw [hstep]; simp [hn]
      | processExited obj st => simp [settles, hw] at hs
      | enable s o => simp [settles] at hs
      | disable => simp [settles] at hs
      | killCurrentProcess => simp [settles] at hs
      | startupComplete o => simp [settles] at hs

theorem settles_after_timer (c n : Nat) (evs : List Event) :
    ∀ w : World, Inv w → (w.handles c).exitWatched = true → w.timers = [] →
      w.numHandles = n + 1 → w.data.currentProcess = some n → c < n →
      settles c w evs = true →
      (run w evs).numHandles = n + 1 ∧ (run w evs).data.currentProcess = some n := by
  induction evs with
  | nil => intro w _ hw _ _ _ _ hs; simp [settles, hw] at hs
  | cons e rest ih =>
      intro w h hw ht hn hc hcn hs
      cases e with
      | waitCancelled k =>
          obtain ⟨g1, g2, g3, g4, _⟩ := waitCancelled_step w k
          simp only [settles, Bool.true_and] at hs
          exact ih _ (inv_step w _ h) (by rw [g4]; exact hw) (by rw [g1]; exact ht)
            (by rw [g3]; exact hn) (by rw [g2]; exact hc) hcn hs
      | processExited obj st =>
          simp only [settles, Bool.and_eq_true, beq_iff_eq] at hs
          obtain ⟨⟨hobj, _⟩, hrest⟩ := hs
          subst hobj
          have hst : ∀ d, w.data.currentProcess = some d →
              (w.handles d).subprocess ≠ some obj := by
            intro d hd hsd
            rw [hc] at hd
            cases hd
            have := h.sub_self n obj hsd
            omega
          have hstep : step w (.processExited obj st) = completeWait (unwatch w obj) obj :=
            deliverExit_stale w obj st hw hst
          refine settles_done obj n rest _ ?_ ?_ ?_ ?_ hrest
          · rw [hstep, completeWait_exitWatched, unwatch_exitWatched]
          · rw [hstep, completeWait_timers]; exact ht
          · rw [hstep, completeWait_numHandles]; exact hn
          · rw [hstep, completeWait_data]; exact hc
      | timerFired id o => simp [settles, ht] at hs
      | enable s o => simp [settles] at hs
      | disable => simp [settles] at hs
      | killCurrentProcess => simp [settles] at hs
      | startupComplete o => simp [settles] at hs

theorem settles_after_kill (c n : Nat) (evs : List Event) :
    ∀ w : World, Inv w → w.data.isEnabled = true → w.data.currentProcess = some c →
      (w.handles c).subprocess = some c → w.numHandles = n → settles c w evs = true →
      (run w evs).numHandles = n + 1 ∧ (run w evs).data.currentProcess = some n := by
  induction evs with
  | nil =>
      intro w h _ hc hsub _ hs
      have hw : (w.handles c).exitWatched = true := h.current_watched c c hc hsub
      simp [settles, hw] at hs
  | cons e rest ih =>
      intro w h he hc hsub hn hs
      have hw : (w.handles c).exitWatched = true := h.current_watched c c hc hsub
      have hcn : c < n := hn ▸ h.current_lt c hc
      cases e with
      | waitCancelled k =>
          obtain ⟨_, g2, g3, _, g5⟩ := waitCancelled_step w k
          simp only [settles, Bool.true_and] at hs
          exact ih _ (inv_step w _ h) (by rw [g2]; exact he) (by rw [g2]; exact hc)
            (by rw [g5]; exact hsub) (by rw [g3]; exact hn) hs
      | processExited obj st =>
          simp only [settles, Bool.and_eq_true, beq_iff_eq] at hs
          obtain ⟨⟨hobj, _⟩, hrest⟩ := hs
          subst hobj
          obtain ⟨m, _, hd⟩ := deliverExit_current w obj obj st h hc hsub
          have hstep : step w (.processExited obj st) =
              completeWait (afterExit (unwatch w obj) m st) obj := hd
          have hen : (unwatch w obj).data.isEnabled = true := he
          refine settles_after_exit obj n rest _ (inv_step w _ h) ?_ ?_ ?_ hcn hrest
          · rw [hstep, completeWait_exitWatched]
            simp only [afterExit, hen, if_true]
            exact unwatch_exitWatched w obj
          · rw [hstep, completeWait_timers]
            simp [afterExit, hen]
          · rw [hstep, completeWait_numHandles]
            simp only [afterExit, hen, if_true]
            exact hn
      | timerFired id o =>
          simp only [settles, Bool.and_eq_true] at hs
          obtain ⟨ha, hrest⟩ := hs
          obtain ⟨m, hstep⟩ := timerFired_world w id o h ha
          have hne : c ≠ w.numHandles := by omega
          refine settles_after_timer c n rest _ (inv_step w _ h) ?_ ?_ ?_ ?_ hcn hrest
          · rw [hstep]; simp [hne, hw]
          · rw [hstep]
          · rw [hstep]; simp [hn]
          · rw [hstep]; simp [hn]
      | enable s o => simp [settles] at hs
      | disable => simp [settles] at hs
      | killCurrentProcess => simp [settles] at hs
      | startupComplete o => simp [settles] at hs

theorem rearm_fields (w : World) :
    (rearm w).data.isEnabled = w.data.isEnabled ∧
      (rearm w).data.currentProcess = w.data.currentProcess ∧
      (rearm w).numHandles = w.numHandles ∧ (rearm w).handles = w.handles ∧
      (rearm w).startupHandlers = w.startupHandlers ∧
      (rearm w).data.startupPreparedId = w.data.startupPreparedId := by
  unfold rearm
  by_cases hid : w.data.launchRendererId = 0
  · simp [hid]
  · cases he : w.data.isEnabled <;> simp [hid, he, source_remove, timeout_add]

theorem signalCurrent_subprocess (w : World) (i : Nat) :
    ((signalCurrent w).world.handles i).subprocess = (w.handles i).subprocess := by
  unfold signalCurrent
  split
  · rfl
  · split
    · rfl
    · split
      · rfl
      · simp only [setHandle]
        split
        · rename_i hi; subst hi; rfl
        · rfl

/-- Every call of `launchRenderer` constructs exactly one handle, whatever the state and
the answer of the platform. -/
theorem launchRenderer_numHandles (w : World) (o : Bool) :
    (launchRenderer w o).world.numHandles = w.numHandles + 1 := by
  cases o <;> cases hw : w.cfg.wayland <;> cases hx : w.data.x11Manager <;>
    simp [launchRenderer, LaunchSubprocess.new, LaunchSubprocess.set_cwd,
      LaunchSubprocess.spawnv, LaunchSubprocess.spawnv_finish, LaunchSubprocess.read_output,
      setHandle, hw, hx]

/-- C4: in every reachable enabled state whose current handle `c` has a subprocess,
`killCurrentProcess()` constructs no handle, and however the exit notification of that
process, the firings of the armed timers and the completions of the cancelled
`wait_async` are then ordered, once the exit is delivered
and no timer is left exactly one more handle exists than before: `launchRenderer` ran
exactly once (each of its calls constructs one handle and attempts one spawn), and the
handle it made is the current one. -/
theorem kill_then_exit_relaunches_once (w : World) (c obj : Nat) (evs : List Event)
    (hr : Reachable w) (he : w.data.isEnabled = true)
    (hc : w.data.currentProcess = some c) (hs : (w.handles c).subprocess = some obj)
    (hsettle : settles c (step w .killCurrentProcess) evs = true) :
    (step w .killCurrentProcess).numHandles = w.numHandles ∧
      (run (step w .killCurrentProcess) evs).numHandles = w.numHandles + 1 ∧
      (run (step w .killCurrentProcess) evs).data.currentProcess = some w.numHandles := by
  have h := inv_of_reachable w hr
  have hco : obj = c := h.sub_self c obj hs
  subst hco
  have hk : step w .killCurrentProcess = (signalCurrent (rearm w)).world := rfl
  obtain ⟨f1, f2, f3, f4, _, _⟩ := rearm_fields w
  have hn : (step w .killCurrentProcess).numHandles = w.numHandles := by
    rw [hk, signalCurrent_numHandles, f3]
  refine ⟨hn, ?_⟩
  apply settles_after_kill obj w.numHandles evs _ (inv_step w _ h) ?_ ?_ ?_ hn hsettle
  · rw [hk, signalCurrent_data, f1]; exact he
  · rw [hk, signalCurrent_data, f2]; exact hc
  · rw [hk, signalCurrent_subprocess, f4]; exact hs

/-- Witness for C4: the running renderer is killed, dies from the signal, and the timer
armed by its exit handler fires. -/
theorem kill_then_exit_relaunches_once_witness :
    settles 0 (step sampleRunning .killCurrentProcess)
        [.waitCancelled 0, .processExited 0 (.signaled 15), .timerFired 1 true] = true ∧
      (run (step sampleRunning .killCurrentProcess)
        [.waitCancelled 0, .processExited 0 (.signaled 15), .timerFired 1 true]).numHandles
        = 2 :=
  ⟨by decide, (kill_then_exit_relaunches_once sampleRunning 0 0
    [.waitCancelled 0, .processExited 0 (.signaled 15), .timerFired 1 true]
    ⟨sampleConfig, none, [.enable false true], rfl⟩ rfl rfl rfl (by decide)).2.1⟩

/-! ## C3: handles marked running -/

theorem enableAndLaunch_world (v : World) (o : Bool) (m : X11Manager)
    (hm : v.data.x11Manager = some m)
    (hts : v.timers = [] ∨
      (v.timers = [(v.data.launchRendererId, v.data.reloadTime)] ∧ v.data.launchRendererId ≠ 0)) :
    (enableAndLaunch v o).world =
      { v with
        timers := []
        numHandles := v.numHandles + 1
        handles := fun i =>
          if i = v.numHandles then launchedHandle v.cfg v.numHandles o else v.handles i
        data := { v.data with
          isEnabled := true
          reloadTime := 100
          currentProcess := some v.numHandles
          x11Manager := some { m with client := some v.numHandles } } } := by
  have hf := timers_cleared v hts
  have e1 : enableAndLaunch v o =
      launchRenderer
        (if v.data.launchRendererId ≠ 0 then
          source_remove { v with data := { v.data with isEnabled := true } }
            v.data.launchRendererId
        else { v with data := { v.data with isEnabled := true } }) o := rfl
  rw [e1]
  by_cases h0 : v.data.launchRendererId = 0
  · rw [if_neg (not_not.mpr h0)] at hf ⊢
    rw [launchRenderer_world { v with data := { v.data with isEnabled := true } } o m hm]
    simp [hf]
  · rw [if_pos h0] at hf ⊢
    rw [launchRenderer_world
      (source_remove { v with data := { v.data with isEnabled := true } }
        v.data.launchRendererId) o m hm]
    simp only [source_remove]
    rw [hf]

theorem innerEnable_world (w : World) (r o : Bool) (h : Inv w)
    (hx : w.data.x11Manager ≠ none) :
    (innerEnable w r o).world = disconnectStartup w r ∨
      ∃ g x, (innerEnable w r o).world =
        { disconnectStartup w r with
          timers := []
          numHandles := (disconnectStartup w r).numHandles + 1
          handles := fun i =>
            if i = (disconnectStartup w r).numHandles then
              launchedHandle (disconnectStartup w r).cfg (disconnectStartup w r).numHandles o
            else (disconnectStartup w r).handles i
          data := { (disconnectStartup w r).data with
            isEnabled := true
            reloadTime := 100
            currentProcess := some (disconnectStartup w r).numHandles
            GnomeShellOverride := g
            x11Manager := x } } := by
  rw [innerEnable_eq]
  have hd := inv_disconnectStartup w r h
  have hxd : (disconnectStartup w r).data.x11Manager ≠ none := by
    unfold disconnectStartup; split <;> exact hx
  generalize disconnectStartup w r = v at hd hxd
  obtain ⟨m, hm⟩ := Option.ne_none_iff_exists'.mp hxd
  cases hg : v.data.GnomeShellOverride with
  | none => left; rfl
  | some g =>
      right
      cases hw : v.cfg.wayland
      · refine ⟨some true, some { m with client := some v.numHandles }, ?_⟩
        simp only [hw, Bool.false_eq_true, if_false]
        rw [enableAndLaunch_world
          { v with data := { v.data with GnomeShellOverride := some true } } o m hm
          hd.timers_shape]
      · refine ⟨some true, some { enabled := true, client := some v.numHandles }, ?_⟩
        simp only [hw, if_true, hm]
        rw [enableAndLaunch_world
          { v with data := { v.data with
              GnomeShellOverride := some true
              x11Manager := some { m with enabled := true } } }
          o { m with enabled := true } rfl hd.timers_shape]

theorem exclusive_init (cfg : Config) (proc : Option (List ProcEntry)) :
    Exclusive (init cfg proc) := by
  constructor <;> simp [init, LaunchSubprocess.blank]

theorem exclusive_shrink (w v : World) (h : Exclusive w)
    (hrun : ∀ i, (v.handles i).process_running = true →
      (w.handles i).process_running = true ∧ (v.handles i).waitPending = true)
    (hcur : v.data.currentProcess = w.data.currentProcess) (ht : v.timers = w.timers)
    (hid : v.data.launchRendererId = w.data.launchRendererId)
    (he : v.data.isEnabled = w.data.isEnabled)
    (hh : v.startupHandlers = w.startupHandlers)
    (hp : v.data.startupPreparedId = w.data.startupPreparedId)
    (hn : v.numHandles = w.numHandles) : Exclusive v := by
  have hfalse : ∀ i, (w.handles i).process_running = false →
      (v.handles i).process_running = false := by
    intro i hi
    cases hv : (v.handles i).process_running
    · rfl
    · rw [(hrun i hv).1] at hi; cases hi
  refine ⟨?_, ?_, ?_, ?_, ?_, ?_, ?_⟩
  · intro i hi; rw [hcur]; exact h.running_current i (hrun i hi).1
  · intro i hi; exact (hrun i hi).2
  · rw [ht, hcur]; exact h.timers_idle
  · rw [ht, hid]; exact h.id_armed
  · rw [he, hid]; exact h.disabled_id
  · rw [hh, he, hp]
    intro hne
    obtain ⟨a, b, c⟩ := h.handlers hne
    exact ⟨a, fun i => hfalse i (b i), c⟩
  · intro i hi
    exact hfalse i (h.unused i (hn ▸ hi))

theorem exclusive_idle (w : World) (h : Exclusive w) (hc : w.data.currentProcess = none) :
    ∀ i, (w.handles i).process_running = false := by
  intro i
  cases hr : (w.handles i).process_running
  · rfl
  · have := h.running_current i hr
    rw [hc] at this; cases this

theorem exclusive_launch (w v : World) (o : Bool)
    (hidle : ∀ i, (w.handles i).process_running = false)
    (hhandles : v.handles = fun i =>
      if i = w.numHandles then launchedHandle w.cfg w.numHandles o else w.handles i)
    (hn : v.numHandles = w.numHandles + 1)
    (hcur : v.data.currentProcess = some w.numHandles) (ht : v.timers = [])
    (hid : v.data.launchRendererId = 0) (hh : v.startupHandlers = []) : Exclusive v := by
  have hrun : ∀ i, (v.handles i).process_running = true → i = w.numHandles ∧ o = true := by
    intro i hi
    rw [hhandles] at hi
    simp only at hi
    split at hi
    · rename_i hin
      exact ⟨hin, by simpa [launchedHandle] using hi⟩
    · rw [hidle i] at hi; cases hi
  refine ⟨?_, ?_, ?_, ?_, ?_, ?_, ?_⟩
  · intro i hi; rw [hcur, (hrun i hi).1]
  · intro i hi
    obtain ⟨h1, h2⟩ := hrun i hi
    rw [hhandles, h1, h2]
    simp [launchedHandle]
  · intro hne; exact absurd ht hne
  · intro hne; exact absurd hid hne
  · intro _; exact hid
  · intro hne; exact absurd hh hne
  · intro i hi
    cases hv : (v.handles i).process_running
    · rfl
    · have := (hrun i hv).1; omega

theorem completeWait_running (w : World) (k i : Nat)
    (hr : ((completeWait w k).handles i).process_running = true) :
    (w.handles i).process_running = true ∧ (i = k → (w.handles k).waitPending = false) ∧
      ((completeWait w k).handles i).waitPending = (w.handles i).waitPending := by
  cases hp : (w.handles k).waitPending
  · have e : completeWait w k = w := by simp [completeWait, hp]
    rw [e] at hr ⊢
    exact ⟨hr, fun _ => rfl, rfl⟩
  · have e : completeWait w k = setHandle w k (w.handles k).wait_callback := by
      simp [completeWait, hp]
    rw [e] at hr ⊢
    by_cases hik : i = k
    · subst hik
      simp [setHandle, LaunchSubprocess.wait_callback] at hr
    · simp only [setHandle, hik, if_false] at hr
      refine ⟨hr, fun h => absurd h hik, ?_⟩
      simp only [setHandle, hik, if_false]

theorem exclusive_completeWait (w : World) (k : Nat) (h : Exclusive w) :
    Exclusive (completeWait w k) := by
  apply exclusive_shrink w _ h
  · intro i hi
    obtain ⟨a, _, c⟩ := completeWait_running w k i hi
    exact ⟨a, by rw [c]; exact h.running_wait i a⟩
  · rw [completeWait_data]
  · exact completeWait_timers w k
  · rw [completeWait_data]
  · rw [completeWait_data]
  · unfold completeWait; split <;> rfl
  · rw [completeWait_data]
  · exact completeWait_numHandles w k

theorem unwatch_handle (w : World) (obj i : Nat) :
    ((unwatch w obj).handles i).process_running = (w.handles i).process_running ∧
      ((unwatch w obj).handles i).waitPending = (w.handles i).waitPending := by
  simp only [unwatch, setHandle]
  split
  · rename_i hi; subst hi; exact ⟨rfl, rfl⟩
  · exact ⟨rfl, rfl⟩

theorem exclusive_unwatch (w : World) (obj : Nat) (h : Exclusive w) :
    Exclusive (unwatch w obj) := by
  apply exclusive_shrink w _ h
  · intro i hi
    rw [(unwatch_handle w obj i).1] at hi
    exact ⟨hi, by rw [(unwatch_handle w obj i).2]; exact h.running_wait i hi⟩
  all_goals rfl

theorem signalCurrent_handle (w : World) (i : Nat) :
    ((signalCurrent w).world.handles i).process_running = (w.handles i).process_running ∧
      ((signalCurrent w).world.handles i).waitPending = (w.handles i).waitPending := by
  unfold signalCurrent
  split
  · exact ⟨rfl, rfl⟩
  · split
    · exact ⟨rfl, rfl⟩
    · split
      · exact ⟨rfl, rfl⟩
      · simp only [setHandle]
        split
        · rename_i hi; subst hi; exact ⟨rfl, rfl⟩
        · exact ⟨rfl, rfl⟩

theorem signalCurrent_startupHandlers (w : World) :
    (signalCurrent w).world.startupHandlers = w.startupHandlers := by
  unfold signalCurrent
  split
  · rfl
  · split
    · rfl
    · split <;> rfl

theorem exclusive_signalCurrent (w : World) (h : Exclusive w) :
    Exclusive (signalCurrent w).world := by
  apply exclusive_shrink w _ h
  · intro i hi
    rw [(signalCurrent_handle w i).1] at hi
    exact ⟨hi, by rw [(signalCurrent_handle w i).2]; exact h.running_wait i hi⟩
  · rw [signalCurrent_data]
  · exact signalCurrent_timers w
  · rw [signalCurrent_data]
  · rw [signalCurrent_data]
  · exact signalCurrent_startupHandlers w
  · rw [signalCurrent_data]
  · exact signalCurrent_numHandles w

theorem exclusive_rearm (w : World) (hi : Inv w) (h : Exclusive w) : Exclusive (rearm w) := by
  by_cases hid : w.data.launchRendererId = 0
  · rw [rearm_idle w hid]; exact h
  · have hcur : w.data.currentProcess = none := h.timers_idle (h.id_armed hid)
    cases he : w.data.isEnabled
    · exact absurd (h.disabled_id he) hid
    · rw [rearm_enabled w hi hid he]
      refine ⟨h.running_current, h.running_wait, fun _ => hcur, fun _ => by simp,
        fun hd => ?_, ?_, h.unused⟩
      · simp only at hd; rw [he] at hd; cases hd
      · intro hne
        have := (h.handlers hne).1
        rw [he] at this; cases this

theorem exclusive_killCurrentProcess (w : World) (hi : Inv w) (h : Exclusive w) :
    Exclusive (killCurrentProcess w).world := by
  rw [killCurrentProcess_eq]
  exact exclusive_signalCurrent _ (exclusive_rearm w hi h)

theorem exclusive_after_disable (w : World) (h : Exclusive w) :
    Exclusive { w with timers := [], data := { w.data with isEnabled := false, launchRendererId := 0 } } := by
  refine ⟨h.running_current, h.running_wait, fun hne => absurd rfl hne,
    fun hne => absurd rfl hne, fun _ => rfl, ?_, h.unused⟩
  intro hne
  obtain ⟨_, b, c⟩ := h.handlers hne
  exact ⟨rfl, b, c⟩

theorem exclusive_disable (w : World) (hi : Inv w) (h : Exclusive w) :
    Exclusive (disable w).world := by
  have hk : Exclusive
      (killCurrentProcess { w with data := { w.data with isEnabled := false } }).world := by
    rw [killCurrentProcess_eq, rearm_after_disable w hi]
    exact exclusive_signalCurrent _ (exclusive_after_disable w h)
  unfold disable
  generalize killCurrentProcess { w with data := { w.data with isEnabled := false } } = r at hk
  cases ht : r.thrown <;> cases hg : r.world.data.GnomeShellOverride <;>
    cases hm : r.world.data.x11Manager <;> simp only [ht, hg, hm]
  all_goals first
    | exact hk
    | exact exclusive_shrink _ _ hk (fun i hr => ⟨hr, hk.running_wait i hr⟩) rfl rfl rfl rfl
        rfl rfl rfl

theorem exclusive_timerFired (w : World) (id : Nat) (o : Bool) (hi : Inv w) (h : Exclusive w)
    (ha : w.timers.any (fun t => t.1 == id) = true) :
    Exclusive (step w (.timerFired id o)) := by
  obtain ⟨ht, _, _⟩ := timer_armed w hi id ha
  have hne : w.timers ≠ [] := by rw [ht]; simp
  have hcur := h.timers_idle hne
  have hen : w.data.isEnabled = true := by
    cases he : w.data.isEnabled
    · exact absurd (hi.disabled_timers he) hne
    · rfl
  have hh : w.startupHandlers = [] := by
    by_contra hc
    have := (h.handlers hc).1
    rw [hen] at this; cases this
  obtain ⟨m, hstep⟩ := timerFired_world w id o hi ha
  rw [hstep]
  exact exclusive_launch w _ o (exclusive_idle w h hcur) rfl rfl rfl rfl rfl hh

theorem exclusive_deliverExit (w : World) (obj : Nat) (st : ExitStatus) (hi : Inv w)
    (h : Exclusive w) : Exclusive (deliverExit w obj st) := by
  by_cases hw : (w.handles obj).exitWatched = true
  · by_cases hcur : ∃ c, w.data.currentProcess = some c ∧ (w.handles c).subprocess = some obj
    · obtain ⟨c, hc, hs⟩ := hcur
      obtain ⟨m, _, hd⟩ := deliverExit_current w c obj st hi hc hs
      have hco : obj = c := hi.sub_self c obj hs
      subst hco
      rw [hd]
      have hidle : ∀ i, ((completeWait (afterExit (unwatch w obj) m st) obj).handles i).process_running
          = false := by
        intro i
        cases hr : ((completeWait (afterExit (unwatch w obj) m st) obj).handles i).process_running
        · rfl
        · obtain ⟨a, b, _⟩ := completeWait_running _ obj i hr
          have ha : (w.handles i).process_running = true := by
            have e : (afterExit (unwatch w obj) m st).handles = (unwatch w obj).handles := by
              unfold afterExit; split <;> rfl
            rw [e, (unwatch_handle w obj i).1] at a
            exact a
          have hio : i = obj := by
            have := h.running_current i ha
            rw [hc] at this
            exact (Option.some.inj this).symm
          subst hio
          have hb := b rfl
          have e : (afterExit (unwatch w i) m st).handles = (unwatch w i).handles := by
            unfold afterExit; split <;> rfl
          rw [e, (unwatch_handle w i i).2, h.running_wait i ha] at hb
          cases hb
      have hdata : (completeWait (afterExit (unwatch w obj) m st) obj).data =
          (afterExit (unwatch w obj) m st).data := completeWait_data _ _
      have htim : (completeWait (afterExit (unwatch w obj) m st) obj).timers =
          (afterExit (unwatch w obj) m st).timers := completeWait_timers _ _
      have hsh : (completeWait (afterExit (unwatch w obj) m st) obj).startupHandlers =
          w.startupHandlers := by
        unfold completeWait afterExit
        split <;> split <;> rfl
      refine ⟨?_, ?_, ?_, ?_, ?_, ?_, ?_⟩
      · intro i hr; rw [hidle i] at hr; cases hr
      · intro i hr; rw [hidle i] at hr; cases hr
      · intro _; rw [hdata]; unfold afterExit; split <;> rfl
      · rw [hdata, htim]
        unfold afterExit
        split
        · intro _; simp
        · exact h.id_armed
      · rw [hdata]
        unfold afterExit
        split
        · rename_i he
          intro hd
          simp only at hd
          rw [he] at hd; cases hd
        · exact h.disabled_id
      · rw [hsh, hdata]
        intro hne
        obtain ⟨a, _, c⟩ := h.handlers hne
        refine ⟨?_, hidle, ?_⟩
        · unfold afterExit; split <;> exact a
        · unfold afterExit; split <;> exact c
      · intro i _; exact hidle i
    · have hst : ∀ c, w.data.currentProcess = some c →
          (w.handles c).subprocess ≠ some obj := fun c hc hs => hcur ⟨c, hc, hs⟩
      rw [deliverExit_stale w obj st hw hst]
      exact exclusive_completeWait _ obj (exclusive_unwatch w obj h)
  · have e : deliverExit w obj st = completeWait w obj := by
      unfold deliverExit
      rw [completeExitWatch_eq, if_neg hw]
    rw [e]
    exact exclusive_completeWait w obj h

theorem noneRunning_all (w : World) (h : Exclusive w) (hn : noneRunning w = true) :
    ∀ i, (w.handles i).process_running = false := by
  intro i
  by_cases hi : i < w.numHandles
  · simp only [noneRunning, List.all_eq_true, List.mem_range] at hn
    simpa using hn i hi
  · exact h.unused i (by omega)

theorem disconnectStartup_fields (w : World) (r : Bool) :
    (disconnectStartup w r).timers = w.timers ∧
      (disconnectStartup w r).numHandles = w.numHandles ∧
      (disconnectStartup w r).handles = w.handles ∧
      (disconnectStartup w r).cfg = w.cfg ∧
      (disconnectStartup w r).data.isEnabled = w.data.isEnabled ∧
      (disconnectStartup w r).data.launchRendererId = w.data.launchRendererId ∧
      (disconnectStartup w r).data.currentProcess = w.data.currentProcess := by
  unfold disconnectStartup
  split <;> exact ⟨rfl, rfl, rfl, rfl, rfl, rfl, rfl⟩

theorem exclusive_innerEnable (w : World) (r o : Bool) (hi : Inv w) (h : Exclusive w)
    (hx : w.data.x11Manager ≠ none) (hen : w.data.isEnabled = false)
    (hidle : ∀ i, (w.handles i).process_running = false)
    (hh : (disconnectStartup w r).startupHandlers = []) :
    Exclusive (innerEnable w r o).world := by
  obtain ⟨f1, f2, f3, f4, f5, f6, f7⟩ := disconnectStartup_fields w r
  have hd : Exclusive (disconnectStartup w r) := by
    refine ⟨?_, ?_, ?_, ?_, ?_, ?_, ?_⟩
    · rw [f3, f7]; exact h.running_current
    · rw [f3]; exact h.running_wait
    · rw [f1, f7]; exact h.timers_idle
    · rw [f1, f6]; exact h.id_armed
    · rw [f5, f6]; exact h.disabled_id
    · intro hne; exact absurd hh hne
    · rw [f2, f3]; exact h.unused
  rcases innerEnable_world w r o hi hx with e | ⟨g, x, e⟩
  · rw [e]; exact hd
  · rw [e]
    refine exclusive_launch (disconnectStartup w r) _ o ?_ rfl rfl rfl rfl ?_ hh
    · rw [f3]; exact hidle
    · show (disconnectStartup w r).data.launchRendererId = 0
      rw [f6]; exact h.disabled_id hen

theorem exclusive_enable (w : World) (s o : Bool) (hi : Inv w) (h : Exclusive w)
    (hg : enableAllowed w = true) : Exclusive (enable w s o).world := by
  simp only [enableAllowed, Bool.and_eq_true, Bool.not_eq_true', List.isEmpty_iff] at hg
  obtain ⟨⟨hen, hh⟩, hnr⟩ := hg
  have hidle := noneRunning_all w h hnr
  obtain ⟨g, m, hc⟩ := createCollaborators_form w
  have hcx : Exclusive (createCollaborators w) := by
    rw [hc]
    exact exclusive_shrink w _ h (fun i hr => ⟨hr, h.running_wait i hr⟩) rfl rfl rfl rfl rfl
      rfl rfl
  rw [enable_eq]
  cases s
  · simp only [Bool.false_eq_true, if_false]
    apply exclusive_innerEnable _ false o (inv_createCollaborators w hi) hcx
      (createCollaborators_x11 w)
    · rw [hc]; exact hen
    · rw [hc]; exact hidle
    · rw [hc]; exact hh
  · simp only [if_true]
    rw [hc]
    refine ⟨?_, ?_, ?_, ?_, ?_, ?_, ?_⟩
    · exact h.running_current
    · exact h.running_wait
    · exact h.timers_idle
    · exact h.id_armed
    · exact h.disabled_id
    · intro _
      refine ⟨hen, hidle, w.nextHandlerId, ?_, rfl⟩
      simp [hh]
    · exact h.unused

theorem exclusive_emitStartupComplete (w : World) (o : Bool) (hi : Inv w) (h : Exclusive w) :
    Exclusive (emitStartupComplete o w.startupHandlers w) := by
  by_cases hne : w.startupHandlers = []
  · rw [hne]; exact h
  · obtain ⟨hen, hidle, a, ha, hp⟩ := h.handlers hne
    have hx : w.data.x11Manager ≠ none := fun hn => hne (hi.x11 hn).2.1
    have e : emitStartupComplete o w.startupHandlers w = (innerEnable w true o).world := by
      rw [ha]
      simp [emitStartupComplete, ha]
    rw [e]
    apply exclusive_innerEnable w true o hi h hx hen hidle
    simp [disconnectStartup, ha, hp]

theorem exclusive_step (w : World) (e : Event) (hi : Inv w) (h : Exclusive w)
    (hg : ∀ s o, e = .enable s o → enableAllowed w = true) : Exclusive (step w e) := by
  cases e with
  | enable s o => exact exclusive_enable w s o hi h (hg s o rfl)
  | disable => exact exclusive_disable w hi h
  | killCurrentProcess => exact exclusive_killCurrentProcess w hi h
  | startupComplete o => exact exclusive_emitStartupComplete w o hi h
  | timerFired id o =>
      by_cases ha : w.timers.any (fun t => t.1 == id) = true
      · exact exclusive_timerFired w id o hi h ha
      · simp only [step, ha]
        exact h
  | processExited obj st => exact exclusive_deliverExit w obj st hi h
  | waitCancelled k =>
      simp only [step]
      split
      · exact exclusive_completeWait w k h
      · exact h

theorem exclusive_run (evs : List Event) :
    ∀ w, Inv w → Exclusive w → admissible w evs = true → Exclusive (run w evs) := by
  induction evs with
  | nil => intro w _ h _; exact h
  | cons e rest ih =>
      intro w hi h ha
      simp only [admissible, Bool.and_eq_true] at ha
      apply ih _ (inv_step w e hi) _ ha.2
      apply exclusive_step w e hi h
      intro s o he
      subst he
      exact ha.1

/-- C3, counterexample: after `init()`, `enable()`, `disable()` and `enable()` with no
callback dispatched in between, the supervisor has constructed two handles and both have
`process_running = true`: the first renderer was sent SIGTERM, but its handle is only
marked stopped by a callback that has not run yet. -/
theorem two_handles_running_after_reenable :
    sampleReenabled.numHandles = 2 ∧
      (sampleReenabled.handles 0).process_running = true ∧
      (sampleReenabled.handles 1).process_running = true ∧
      (sampleReenabled.handles 0).signals = [15] := by
  decide

/-- C3, amended: in every state reached from `init()` by a sequence of dispatches
(`enable()`, `disable()`, `killCurrentProcess()`, `startup-complete`, timer firings, exit
notifications, completions of cancelled waits) in which every `enable()` is called while
the supervisor is disabled, no `startup-complete` handler is connected and no handle has
`process_running = true`, at most one handle has `process_running = true`, and that
handle is `data.currentProcess`. -/
theorem at_most_one_handle_running (cfg : Config) (proc : Option (List ProcEntry))
    (evs : List Event) (ha : admissible (init cfg proc) evs = true) (i j : Nat)
    (hi : ((run (init cfg proc) evs).handles i).process_running = true)
    (hj : ((run (init cfg proc) evs).handles j).process_running = true) :
    i = j ∧ (run (init cfg proc) evs).data.currentProcess = some i := by
  have h := exclusive_run evs _ (inv_init cfg proc) (exclusive_init cfg proc) ha
  have h1 := h.running_current i hi
  have h2 := h.running_current j hj
  rw [h1] at h2
  exact ⟨Option.some.inj h2, h1⟩

/-- Witness for C3 amended: `enable()`, `disable()`, the exit of the killed renderer, then
`enable()` again: only the second handle is marked running. -/
theorem at_most_one_handle_running_witness :
    admissible (init sampleConfig none)
        [.enable false true, .disable, .processExited 0 (.signaled 15), .enable false true]
        = true ∧
      (run (init sampleConfig none)
        [.enable false true, .disable, .processExited 0 (.signaled 15),
          .enable false true]).data.currentProcess = some 1 :=
  ⟨by decide, (at_most_one_handle_running sampleConfig none
    [.enable false true, .disable, .processExited 0 (.signaled 15), .enable false true]
    (by decide) 1 1 (by decide) (by decide)).2⟩

/-! ## C2, the part that holds: timers and exit notifications after disable() -/

theorem exit_callback_fields (v : World) (obj : Nat) (st : ExitStatus) :
    (exit_callback v obj st).world.numHandles = v.numHandles ∧
      (exit_callback v obj st).world.data.isEnabled = v.data.isEnabled := by
  unfold exit_callback
  cases hc : v.data.currentProcess with
  | none => exact ⟨rfl, rfl⟩
  | some c =>
      by_cases hs : (v.handles c).subprocess = some obj
      · cases hx : v.data.x11Manager <;> cases he : v.data.isEnabled <;>
          by_cases hid : v.data.launchRendererId = 0 <;>
          simp [hs, hx, he, hid, timeout_add, source_remove]
      · simp [hs]

theorem deliverExit_fields (w : World) (obj : Nat) (st : ExitStatus) :
    (deliverExit w obj st).numHandles = w.numHandles ∧
      (deliverExit w obj st).data.isEnabled = w.data.isEnabled := by
  unfold deliverExit
  rw [completeWait_numHandles, completeWait_data, completeExitWatch_eq]
  split
  · exact exit_callback_fields (unwatch w obj) obj st
  · exact ⟨rfl, rfl⟩

theorem disable_fields (w : World) :
    (disable w).world.numHandles = w.numHandles ∧
      (disable w).world.data.isEnabled = false := by
  have hk : (killCurrentProcess { w with data := { w.data with isEnabled := false } }).world.numHandles
        = w.numHandles ∧
      (killCurrentProcess { w with data := { w.data with isEnabled := false } }).world.data.isEnabled
        = false := by
    rw [killCurrentProcess_eq, signalCurrent_numHandles, signalCurrent_data]
    obtain ⟨f1, _, f3, _⟩ := rearm_fields { w with data := { w.data with isEnabled := false } }
    exact ⟨f3, f1⟩
  unfold disable
  generalize killCurrentProcess { w with data := { w.data with isEnabled := false } } = r at hk
  cases ht : r.thrown <;> cases hg : r.world.data.GnomeShellOverride <;>
    cases hm : r.world.data.x11Manager <;> simp only [ht, hg, hm] <;> exact hk

theorem quiet_step (w : World) (e : Event) (h : Inv w) (hd : w.data.isEnabled = false)
    (he : afterDisableEvent e = true) :
    (step w e).numHandles = w.numHandles ∧ (step w e).data.isEnabled = false := by
  cases e with
  | enable s o => simp [afterDisableEvent] at he
  | startupComplete o => simp [afterDisableEvent] at he
  | disable => exact disable_fields w
  | killCurrentProcess =>
      have hk : step w .killCurrentProcess = (signalCurrent (rearm w)).world := rfl
      obtain ⟨f1, _, f3, _⟩ := rearm_fields w
      rw [hk, signalCurrent_numHandles, signalCurrent_data, f1, f3]
      exact ⟨rfl, hd⟩
  | timerFired id o =>
      have ht := h.disabled_timers hd
      simp [step, ht, hd]
  | processExited obj st =>
      obtain ⟨a, b⟩ := deliverExit_fields w obj st
      exact ⟨a, b.trans hd⟩
  | waitCancelled k =>
      obtain ⟨_, g2, g3, _, _⟩ := waitCancelled_step w k
      exact ⟨g3, by rw [g2]; exact hd⟩

/-- While the supervisor is disabled, no timer firing, exit notification (of the current
or of a superseded process), cancelled wait, `killCurrentProcess()` or further
`disable()` constructs a handle or re-enables it: `launchRenderer` does not run. -/
theorem no_launch_while_disabled (evs : List Event) :
    ∀ w, Inv w → w.data.isEnabled = false → (∀ e ∈ evs, afterDisableEvent e = true) →
      (run w evs).numHandles = w.numHandles ∧ (run w evs).data.isEnabled = false := by
  induction evs with
  | nil => intro w _ hd _; exact ⟨rfl, hd⟩
  | cons e rest ih =>
      intro w h hd hall
      obtain ⟨a, b⟩ := quiet_step w e h hd (hall e (List.mem_cons_self _ _))
      obtain ⟨c, d⟩ := ih (step w e) (inv_step w e h) b
        (fun x hx => hall x (List.mem_cons_of_mem _ hx))
      exact ⟨c.trans a, d⟩

/-- After `disable()` in a reachable state, the dispatches other than `enable()` and
`startup-complete` launch nothing. -/
theorem no_launch_after_disable (w : World) (hr : Reachable w) (evs : List Event)
    (hall : ∀ e ∈ evs, afterDisableEvent e = true) :
    (run (disable w).world evs).numHandles = w.numHandles := by
  have h := inv_of_reachable w hr
  obtain ⟨a, b⟩ := disable_fields w
  exact (no_launch_while_disabled evs _ (inv_disable w h) b hall).1.trans a

end Hanabi
